import Mathlib

/-!
Verification of the reconciliation engine of `tasksmd-sync`.

This file gives a shallow embedding, in Lean, of the sync engine found in
`src/tasksmd_sync/sync.py` (plan building in `build_sync_plan`, diffing in
`_needs_update`, title fallback in `_title_fallback_match`, execution in
`execute_sync` and `_apply_task_fields`), together with the data model from
`src/tasksmd_sync/models.py` and `src/tasksmd_sync/github_projects.py`.

Python dictionaries are modelled by association lists with the source lookup
semantics, Python sets by duplicate-free insertion lists, Python string
truthiness by an explicit `optTruthy`, and the remote client by a record of
pure response functions; the executor is a state-passing computation that
records the exact sequence of client calls it issues.
-/

namespace TasksmdSync

/-- Calendar date, standing for Python `datetime.date`.  The engine only ever
compares dates for equality and passes them through to the client. -/
structure Date where
  year : Nat
  month : Nat
  day : Nat
deriving DecidableEq, Repr

/-- Task parsed from TASKS.md, from `models.py` (class `Task`).

Note on `due_date`: the dataclass in `models.py` does **not** declare this
field, yet `parser.py` (`_TaskBuilder.build`) constructs `Task` with a
`due_date` argument, `sync.py` (`_needs_update`, `_apply_task_fields`) reads
`task.due_date`, and `tests/test_sync.py` builds tasks with `due_date=...`.
The field is therefore included here as the parser and the differ use it; the
discrepancy itself is the subject of one of the claims below. -/
structure Task where
  title : String
  status : String
  description : String := ""
  board_item_id : Option String := none
  assignee : Option String := none
  labels : List String := []
  due_date : Option Date := none
deriving DecidableEq, Repr

/-- Board item, from `github_projects.py` (class `ProjectItem`). -/
structure ProjectItem where
  item_id : String
  content_id : Option String := none
  content_type : Option String := none
  title : String := ""
  status : String := ""
  assignee : Option String := none
  labels : List String := []
  due_date : Option Date := none
  description : String := ""
  repo_owner : Option String := none
  repo_name : Option String := none
deriving DecidableEq, Repr

/-- Python truthiness of an optional string: `None` and `""` are falsy. -/
def optTruthy : Option String → Bool
  | none => false
  | some s => !s.isEmpty

/-- Lookup in the dict `board_by_id = {bi.item_id: bi for bi in board_items}`:
when several items share an id the later binding wins. -/
def boardById (board_items : List ProjectItem) (id : String) : Option ProjectItem :=
  board_items.foldl (fun acc bi => if bi.item_id == id then some bi else acc) none

/-- Lookup in the dict built with `board_by_title.setdefault(bi.title, bi)` over
items with a truthy title: the first item bearing the title wins. -/
def boardByTitle (board_items : List ProjectItem) (title : String) : Option ProjectItem :=
  board_items.find? (fun bi => !bi.title.isEmpty && bi.title == title)

/-- Insertion into a Python set modelled as a duplicate-free list. -/
def addSeen (seen : List String) (id : String) : List String :=
  if seen.contains id then seen else id :: seen

/-- Code-point comparison of characters, as Python compares strings. -/
def charLe (a b : Char) : Bool := a.val ≤ b.val

/-- Lexicographic order on character lists (Python string order). -/
def strLeList : List Char → List Char → Bool
  | [], _ => true
  | _ :: _, [] => false
  | a :: as, b :: bs => if a = b then strLeList as bs else charLe a b

/-- Python `s1 <= s2` on strings. -/
def strLe (a b : String) : Bool := strLeList a.data b.data

/-- Insertion into an ascending list, for `sortedStrings`. -/
def insertSorted (s : String) : List String → List String
  | [] => [s]
  | x :: xs => if strLe s x then s :: x :: xs else x :: insertSorted s xs

/-- Python `sorted` on a list of strings (used for label comparison). -/
def sortedStrings (l : List String) : List String :=
  l.foldr insertSorted []

/-- Python `s.lower()`. -/
def strLower (s : String) : String := String.mk (s.data.map Char.toLower)

/-- Python `s.strip()`: drop leading and trailing whitespace. -/
def strTrim (s : String) : String :=
  String.mk (((s.data.dropWhile Char.isWhitespace).reverse.dropWhile
    Char.isWhitespace).reverse)

/-- Diff check `_needs_update(task, board_item)` from `sync.py`. -/
def needs_update (task : Task) (board_item : ProjectItem) : Bool :=
  if task.title != board_item.title then true
  else if !task.status.isEmpty && strLower task.status != strLower board_item.status then true
  else if strTrim task.description != strTrim board_item.description then true
  else if task.due_date.isSome && task.due_date != board_item.due_date then true
  else if board_item.content_type == some "Issue" then
    if optTruthy task.assignee && task.assignee != board_item.assignee then true
    else if !task.labels.isEmpty
        && sortedStrings task.labels != sortedStrings board_item.labels then true
    else false
  else false

/-- Title fallback `_title_fallback_match(task, board_by_title, seen_board_ids)`
from `sync.py`: the first item bearing the title, unless already claimed. -/
def title_fallback_match (task : Task) (board_items : List ProjectItem)
    (seen : List String) : Option ProjectItem :=
  match boardByTitle board_items task.title with
  | some matched => if seen.contains matched.item_id then none else some matched
  | none => none

/-- Sync plan, from `sync.py` (class `SyncPlan`).  The two extra fields carry
the loop state of `build_sync_plan`: `seen_board_ids` is the claimed-item set
and `tasks_out` is the task list after the in-memory identifier rewrites that
the Python code performs by mutating `task.board_item_id`. -/
structure SyncPlan where
  create : List Task := []
  update : List (Task × ProjectItem) := []
  unarchive : List Task := []
  archive : List ProjectItem := []
  unchanged : List Task := []
  title_matched : List String := []
  seen_board_ids : List String := []
  tasks_out : List Task := []
deriving DecidableEq, Repr

/-- Shared tail of the two fallback-success branches of `build_sync_plan`:
rewrite the task identifier to the matched item, record the title, claim the
item, and route by `_needs_update`. -/
def fallbackClaim (plan : SyncPlan) (task : Task) (matched : ProjectItem) : SyncPlan :=
  let task2 := { task with board_item_id := some matched.item_id }
  let plan := { plan with
    seen_board_ids := addSeen plan.seen_board_ids matched.item_id,
    title_matched := addSeen plan.title_matched task.title }
  if needs_update task2 matched then
    { plan with update := plan.update ++ [(task2, matched)],
                tasks_out := plan.tasks_out ++ [task2] }
  else
    { plan with unchanged := plan.unchanged ++ [task2],
                tasks_out := plan.tasks_out ++ [task2] }

/-- Body of the task loop of `build_sync_plan` for one task. -/
def planStep (board_items : List ProjectItem) (plan : SyncPlan) (task : Task) : SyncPlan :=
  let tid := task.board_item_id.getD ""
  if optTruthy task.board_item_id then
    match boardById board_items tid with
    | some board_item =>
        let plan := { plan with seen_board_ids := addSeen plan.seen_board_ids tid }
        if needs_update task board_item then
          { plan with update := plan.update ++ [(task, board_item)],
                      tasks_out := plan.tasks_out ++ [task] }
        else
          { plan with unchanged := plan.unchanged ++ [task],
                      tasks_out := plan.tasks_out ++ [task] }
    | none =>
        match title_fallback_match task board_items plan.seen_board_ids with
        | some matched => fallbackClaim plan task matched
        | none =>
            { plan with unarchive := plan.unarchive ++ [task],
                        tasks_out := plan.tasks_out ++ [task] }
  else
    match title_fallback_match task board_items plan.seen_board_ids with
    | some matched => fallbackClaim plan task matched
    | none =>
        { plan with create := plan.create ++ [task],
                    tasks_out := plan.tasks_out ++ [task] }

/-- Archive scoping filter of `build_sync_plan`: with a truthy owner and name
the item repository fields have to match exactly; otherwise with a truthy
label the item labels have to carry it; otherwise everything qualifies. -/
def archive_scope_ok (repo_owner repo_name repo_label : Option String)
    (bi : ProjectItem) : Bool :=
  if optTruthy repo_owner && optTruthy repo_name then
    bi.repo_owner == repo_owner && bi.repo_name == repo_name
  else if optTruthy repo_label then
    bi.labels.contains (repo_label.getD "")
  else true

/-- Plan construction `build_sync_plan` from `sync.py`. -/
def build_sync_plan (tasks : List Task) (board_items : List ProjectItem)
    (repo_owner repo_name repo_label : Option String) : SyncPlan :=
  let plan := tasks.foldl (planStep board_items) {}
  { plan with archive := board_items.filter (fun bi =>
      !plan.seen_board_ids.contains bi.item_id
      && archive_scope_ok repo_owner repo_name repo_label bi) }

/-- State of the plan-building loop after the first `k` tasks. -/
def planAfter (tasks : List Task) (board_items : List ProjectItem) (k : Nat) : SyncPlan :=
  (tasks.take k).foldl (planStep board_items) {}

example :
    (build_sync_plan
      [{ title := "Existing unchanged", status := "Todo", description := "d",
         board_item_id := some "PVTI_1" },
       { title := "Existing changed", status := "In Progress",
         board_item_id := some "PVTI_2" },
       { title := "Brand new", status := "Todo" }]
      [{ item_id := "PVTI_1", title := "Existing unchanged", status := "Todo",
         description := "d" },
       { item_id := "PVTI_2", title := "Existing changed", status := "Todo" },
       { item_id := "PVTI_3", title := "To be archived", status := "Todo" }]
      none none none).unchanged.length = 1 := by decide

example :
    (build_sync_plan
      [{ title := "Duplicate title", status := "Todo" },
       { title := "Duplicate title", status := "In Progress" }]
      [{ item_id := "PVTI_1", title := "Duplicate title", status := "Todo" }]
      none none none).create.length = 1 := by decide

/-! ## Structural lemmas about the plan-building loop -/

/-- Total number of task-bucket entries of a plan state. -/
def taskBucketCount (p : SyncPlan) : Nat :=
  p.create.length + p.update.length + p.unarchive.length + p.unchanged.length

theorem addSeen_self (seen : List String) (id : String) : id ∈ addSeen seen id := by
  unfold addSeen
  split
  · simpa using (by assumption : seen.contains id = true)
  · exact List.mem_cons_self _ _

theorem addSeen_mono (seen : List String) (id x : String) (h : x ∈ seen) :
    x ∈ addSeen seen id := by
  unfold addSeen
  split
  · exact h
  · exact List.mem_cons_of_mem _ h

theorem boardById_item_id (board_items : List ProjectItem) (id : String)
    (bi : ProjectItem) (h : boardById board_items id = some bi) : bi.item_id = id := by
  have H : ∀ (l : List ProjectItem) (acc : Option ProjectItem),
      (∀ b, acc = some b → b.item_id = id) →
      l.foldl (fun acc bi => if bi.item_id == id then some bi else acc) acc = some bi →
      bi.item_id = id := by
    intro l
    induction l with
    | nil => intro acc hacc h0; exact hacc bi h0
    | cons hd tl ih =>
        intro acc hacc h0
        simp only [List.foldl_cons] at h0
        refine ih _ ?_ h0
        intro b hb
        split at hb
        · cases hb
          exact beq_iff_eq.mp (by assumption)
        · exact hacc b hb
  unfold boardById at h
  exact H board_items none (by intro b hb; cases hb) h

theorem planStep_count (board_items : List ProjectItem) (st : SyncPlan) (t : Task) :
    taskBucketCount (planStep board_items st t) = taskBucketCount st + 1 := by
  unfold taskBucketCount planStep fallbackClaim
  dsimp only
  repeat' split
  all_goals simp only [List.length_append, List.length_cons, List.length_nil]
  all_goals omega

theorem foldl_planStep_count (board_items : List ProjectItem) (tasks : List Task)
    (st : SyncPlan) :
    taskBucketCount (tasks.foldl (planStep board_items) st)
      = taskBucketCount st + tasks.length := by
  induction tasks generalizing st with
  | nil => simp
  | cons hd tl ih =>
      simp only [List.foldl_cons, List.length_cons]
      rw [ih, planStep_count]
      omega

/-- One plan state carries over into another: no bucket entry and no set
element is ever dropped by later loop iterations. -/
def PlanLe (p q : SyncPlan) : Prop :=
  (∀ x, x ∈ p.create → x ∈ q.create) ∧ (∀ x, x ∈ p.update → x ∈ q.update)
  ∧ (∀ x, x ∈ p.unarchive → x ∈ q.unarchive) ∧ (∀ x, x ∈ p.unchanged → x ∈ q.unchanged)
  ∧ (∀ x, x ∈ p.seen_board_ids → x ∈ q.seen_board_ids)
  ∧ (∀ x, x ∈ p.title_matched → x ∈ q.title_matched)

theorem PlanLe.rfl (p : SyncPlan) : PlanLe p p :=
  ⟨fun _ h => h, fun _ h => h, fun _ h => h, fun _ h => h, fun _ h => h, fun _ h => h⟩

theorem PlanLe.trans {p q r : SyncPlan} (h1 : PlanLe p q) (h2 : PlanLe q r) : PlanLe p r :=
  ⟨fun x h => h2.1 x (h1.1 x h),
   fun x h => h2.2.1 x (h1.2.1 x h),
   fun x h => h2.2.2.1 x (h1.2.2.1 x h),
   fun x h => h2.2.2.2.1 x (h1.2.2.2.1 x h),
   fun x h => h2.2.2.2.2.1 x (h1.2.2.2.2.1 x h),
   fun x h => h2.2.2.2.2.2 x (h1.2.2.2.2.2 x h)⟩

theorem planStep_le (board_items : List ProjectItem) (st : SyncPlan) (t : Task) :
    PlanLe st (planStep board_items st t) := by
  unfold PlanLe planStep fallbackClaim
  dsimp only
  repeat' split
  all_goals
    refine ⟨fun x hx => ?_, fun x hx => ?_, fun x hx => ?_,
            fun x hx => ?_, fun x hx => ?_, fun x hx => ?_⟩
  all_goals simp_all [addSeen_mono, List.mem_append]

theorem foldl_planStep_le (board_items : List ProjectItem) (tasks : List Task)
    (st : SyncPlan) : PlanLe st (tasks.foldl (planStep board_items) st) := by
  induction tasks generalizing st with
  | nil => exact PlanLe.rfl st
  | cons hd tl ih =>
      simp only [List.foldl_cons]
      exact PlanLe.trans (planStep_le board_items st hd) (ih _)

theorem planAfter_succ (tasks : List Task) (board_items : List ProjectItem)
    (k : Nat) (hk : k < tasks.length) :
    planAfter tasks board_items (k + 1)
      = planStep board_items (planAfter tasks board_items k) tasks[k] := by
  unfold planAfter
  have h1 : tasks.take (k + 1) = tasks.take k ++ [tasks[k]] := by
    rw [List.take_succ, List.getElem?_eq_getElem hk]
    rfl
  rw [h1, List.foldl_append, List.foldl_cons, List.foldl_nil]

theorem planAfter_le (tasks : List Task) (board_items : List ProjectItem)
    (j k : Nat) (hjk : j ≤ k) :
    PlanLe (planAfter tasks board_items j) (planAfter tasks board_items k) := by
  induction k with
  | zero =>
      cases Nat.le_zero.mp hjk
      exact PlanLe.rfl _
  | succ k ih =>
      rcases Nat.lt_or_ge j (k + 1) with hj | hj
      · have hj2 : j ≤ k := Nat.lt_succ_iff.mp hj
        by_cases hk : k < tasks.length
        · rw [planAfter_succ tasks board_items k hk]
          exact PlanLe.trans (ih hj2) (planStep_le _ _ _)
        · have : tasks.take (k + 1) = tasks.take k := by
            rw [List.take_of_length_le (Nat.le_of_not_lt hk),
                List.take_of_length_le (Nat.le_succ_of_le (Nat.le_of_not_lt hk))]
          unfold planAfter
          rw [this]
          exact ih hj2
      · have : j = k + 1 := Nat.le_antisymm hjk hj
        subst this
        exact PlanLe.rfl _

theorem build_sync_plan_eq_planAfter (tasks : List Task) (board_items : List ProjectItem)
    (repo_owner repo_name repo_label : Option String) :
    build_sync_plan tasks board_items repo_owner repo_name repo_label
      = { planAfter tasks board_items tasks.length with
          archive := board_items.filter (fun bi =>
            !(planAfter tasks board_items tasks.length).seen_board_ids.contains bi.item_id
            && archive_scope_ok repo_owner repo_name repo_label bi) } := by
  unfold build_sync_plan planAfter
  rw [List.take_length]

/-- Invariant of the plan loop: the item of every pair already placed in the
update bucket has been claimed. -/
def UpdateIdsSeen (p : SyncPlan) : Prop :=
  ∀ pr ∈ p.update, pr.2.item_id ∈ p.seen_board_ids

theorem planStep_updateIdsSeen (board_items : List ProjectItem) (st : SyncPlan)
    (t : Task) (h : UpdateIdsSeen st) : UpdateIdsSeen (planStep board_items st t) := by
  unfold UpdateIdsSeen at h ⊢
  unfold planStep fallbackClaim
  dsimp only
  repeat' split
  all_goals intro pr hpr
  all_goals
    first
    | exact h pr hpr
    | exact addSeen_mono _ _ _ (h pr hpr)
    | (rcases List.mem_append.mp hpr with hpr2 | hpr2
       · exact addSeen_mono _ _ _ (h pr hpr2)
       · simp only [List.mem_singleton] at hpr2
         subst hpr2
         dsimp only
         first
         | (have hid := boardById_item_id board_items (t.board_item_id.getD "") _ (by assumption)
            rw [hid]
            exact addSeen_self _ _)
         | exact addSeen_self _ _)

theorem foldl_updateIdsSeen (board_items : List ProjectItem) (tasks : List Task)
    (st : SyncPlan) (h : UpdateIdsSeen st) :
    UpdateIdsSeen (tasks.foldl (planStep board_items) st) := by
  induction tasks generalizing st with
  | nil => exact h
  | cons hd tl ih =>
      simp only [List.foldl_cons]
      exact ih _ (planStep_updateIdsSeen board_items st hd h)

theorem optTruthy_some {x : String} (hx : x ≠ "") : optTruthy (some x) = true := by
  show (!x.isEmpty) = true
  cases hstr : x.isEmpty with
  | false => rfl
  | true => exact absurd ((String.isEmpty_iff x).mp hstr) hx

/-! ## Claim C1 -/

/-- C1 as stated is false on the code: the identifier-match branch of
`build_sync_plan` never consults the claimed-item set, so a later task that
carries the identifier of an item an earlier task already claimed by title
fallback claims that item again.  Here task "T" (no identifier) claims item
"Y" by title, then task "U", carrying identifier "Y", claims the same item by
identifier match, and item "Y" backs two pairs of the update bucket. -/
theorem claim_C1_counterexample :
    ((build_sync_plan
      [{ title := "T", status := "A" },
       { title := "U", status := "B", board_item_id := some "Y" }]
      [{ item_id := "Y", title := "T", status := "C" }]
      none none none).update.map (fun pr => pr.2.item_id)) = ["Y", "Y"] := by decide

/-- C1 (amended): in every plan produced by `build_sync_plan`, each task lands
in exactly one of the four task buckets (their sizes sum to the number of
tasks), and an item placed in the archive bucket was claimed by no task, so
its identifier is distinct from the item identifier of every update pair.
The original claim fails only in that a later task carrying the identifier of
an already-claimed item claims that item again by identifier match, so a
remote item identifier can back more than one update or unchanged entry. -/
theorem claim_C1 (tasks : List Task) (board_items : List ProjectItem)
    (repo_owner repo_name repo_label : Option String) :
    taskBucketCount (build_sync_plan tasks board_items repo_owner repo_name repo_label)
      = tasks.length
    ∧ ∀ bi pr,
        bi ∈ (build_sync_plan tasks board_items repo_owner repo_name repo_label).archive →
        pr ∈ (build_sync_plan tasks board_items repo_owner repo_name repo_label).update →
        pr.2.item_id ≠ bi.item_id := by
  rw [build_sync_plan_eq_planAfter]
  constructor
  · show taskBucketCount (planAfter tasks board_items tasks.length) = tasks.length
    unfold planAfter
    rw [List.take_length, foldl_planStep_count]
    simp [taskBucketCount]
  · intro bi pr hbi hpr
    have hseen : pr.2.item_id ∈ (planAfter tasks board_items tasks.length).seen_board_ids := by
      refine foldl_updateIdsSeen board_items (tasks.take tasks.length) _ ?_ pr hpr
      intro pr2 hpr2
      simp at hpr2
    have hfil := (List.mem_filter.mp hbi).2
    have hnotin : bi.item_id ∉ (planAfter tasks board_items tasks.length).seen_board_ids := by
      intro hmem
      have hcon := (Bool.and_eq_true _ _).mp hfil |>.1
      simp only [Bool.not_eq_true'] at hcon
      rw [show ((planAfter tasks board_items tasks.length).seen_board_ids.contains
        bi.item_id = true) from by simpa using hmem] at hcon
      cases hcon
    intro he
    rw [he] at hseen
    exact hnotin hseen

/-- Witness for C1 at a concrete input: one task carrying identifier "Y" and a
board with items "Y" (matched, title differs, hence update) and "Z"
(unmatched, hence archive). -/
theorem claim_C1_witness :
    taskBucketCount (build_sync_plan
      [{ title := "U", status := "B", board_item_id := some "Y" }]
      [{ item_id := "Y", title := "T", status := "C" },
       { item_id := "Z", title := "Zed", status := "C" }]
      none none none) = 1
    ∧ (({ title := "U", status := "B", board_item_id := some "Y" } : Task),
       ({ item_id := "Y", title := "T", status := "C" } : ProjectItem)).2.item_id
      ≠ ({ item_id := "Z", title := "Zed", status := "C" } : ProjectItem).item_id := by
  constructor
  · exact (claim_C1
      [{ title := "U", status := "B", board_item_id := some "Y" }]
      [{ item_id := "Y", title := "T", status := "C" },
       { item_id := "Z", title := "Zed", status := "C" }]
      none none none).1
  · exact (claim_C1
      [{ title := "U", status := "B", board_item_id := some "Y" }]
      [{ item_id := "Y", title := "T", status := "C" },
       { item_id := "Z", title := "Zed", status := "C" }]
      none none none).2
      { item_id := "Z", title := "Zed", status := "C" }
      ({ title := "U", status := "B", board_item_id := some "Y" },
       { item_id := "Y", title := "T", status := "C" })
      (by decide) (by decide)

/-! ## Claim C2 -/

/-- C2 as stated is false on the code: when the title fallback for a stale
identifier succeeds but the differ reports no field difference, the pair is
placed in the unchanged bucket, not the update bucket (mirrors the source test
`test_title_fallback_stale_id_unchanged_when_fields_match`). -/
theorem claim_C2_counterexample :
    (build_sync_plan
      [{ title := "Fix the bug", status := "Todo", description := "desc",
         board_item_id := some "PVTI_gone" }]
      [{ item_id := "PVTI_real", title := "Fix the bug", status := "Todo",
         description := "desc" }]
      none none none).update = []
    ∧ (build_sync_plan
      [{ title := "Fix the bug", status := "Todo", description := "desc",
         board_item_id := some "PVTI_gone" }]
      [{ item_id := "PVTI_real", title := "Fix the bug", status := "Todo",
         description := "desc" }]
      none none none).unchanged.map (fun t => t.board_item_id) = [some "PVTI_real"] := by
  decide

/-- C2 (amended): for every task carrying a remote identifier absent from the
observed item list, if the first observed item bearing the task title is not
yet claimed, the task identifier is rewritten in memory to that item
identifier, the title is added to the fallback-matched set, and the pair is
placed in the update bucket when the differ reports a difference and in the
unchanged bucket otherwise; if no such item is available the task is placed in
the unarchive bucket and this step adds nothing to create. -/
theorem claim_C2 (tasks : List Task) (board_items : List ProjectItem)
    (repo_owner repo_name repo_label : Option String) (k : Nat) (hk : k < tasks.length)
    (x : String) (hid : tasks[k].board_item_id = some x) (hx : x ≠ "")
    (habsent : boardById board_items x = none)
    (mres : Option ProjectItem)
    (hm : title_fallback_match tasks[k] board_items
            (planAfter tasks board_items k).seen_board_ids = mres) :
    (∀ m, mres = some m →
      ((planAfter tasks board_items (k + 1)).update
        = (planAfter tasks board_items k).update
          ++ (if needs_update { tasks[k] with board_item_id := some m.item_id } m
              then [({ tasks[k] with board_item_id := some m.item_id }, m)] else [])
      ∧ (planAfter tasks board_items (k + 1)).unchanged
        = (planAfter tasks board_items k).unchanged
          ++ (if needs_update { tasks[k] with board_item_id := some m.item_id } m
              then [] else [{ tasks[k] with board_item_id := some m.item_id }])
      ∧ (planAfter tasks board_items (k + 1)).tasks_out
        = (planAfter tasks board_items k).tasks_out
          ++ [{ tasks[k] with board_item_id := some m.item_id }]
      ∧ tasks[k].title
          ∈ (build_sync_plan tasks board_items repo_owner repo_name repo_label).title_matched
      ∧ (needs_update { tasks[k] with board_item_id := some m.item_id } m = true →
          ({ tasks[k] with board_item_id := some m.item_id }, m)
            ∈ (build_sync_plan tasks board_items repo_owner repo_name repo_label).update)
      ∧ (needs_update { tasks[k] with board_item_id := some m.item_id } m = false →
          { tasks[k] with board_item_id := some m.item_id }
            ∈ (build_sync_plan tasks board_items repo_owner repo_name repo_label).unchanged)))
    ∧ (mres = none →
      ((planAfter tasks board_items (k + 1)).unarchive
        = (planAfter tasks board_items k).unarchive ++ [tasks[k]]
      ∧ (planAfter tasks board_items (k + 1)).create
        = (planAfter tasks board_items k).create
      ∧ tasks[k] ∈ (build_sync_plan tasks board_items repo_owner repo_name repo_label).unarchive)) := by
  have hgetD : tasks[k].board_item_id.getD "" = x := by rw [hid]; rfl
  have htruthy : optTruthy tasks[k].board_item_id = true := by
    rw [hid]; exact optTruthy_some hx
  have hstep : planAfter tasks board_items (k + 1)
      = planStep board_items (planAfter tasks board_items k) tasks[k] :=
    planAfter_succ tasks board_items k hk
  have hk1 : k + 1 ≤ tasks.length := Nat.succ_le_of_lt hk
  have hle := planAfter_le tasks board_items (k + 1) tasks.length hk1
  rw [planStep] at hstep
  simp only [hgetD, htruthy, habsent, if_true] at hstep
  rw [hm] at hstep
  constructor
  · intro m hmeq
    subst hmeq
    rw [show (match some m with
        | some matched => fallbackClaim (planAfter tasks board_items k) tasks[k] matched
        | none => { planAfter tasks board_items k with
            unarchive := (planAfter tasks board_items k).unarchive ++ [tasks[k]],
            tasks_out := (planAfter tasks board_items k).tasks_out ++ [tasks[k]] })
        = fallbackClaim (planAfter tasks board_items k) tasks[k] m from rfl] at hstep
    rw [fallbackClaim] at hstep
    by_cases hnu : needs_update { tasks[k] with board_item_id := some m.item_id } m = true
    · simp only [hnu, if_true] at hstep
      refine ⟨?_, ?_, ?_, ?_, ?_, ?_⟩
      · rw [hstep, hnu, if_pos rfl]
      · rw [hstep, hnu, if_pos rfl]
        simp
      · rw [hstep]
      · rw [build_sync_plan_eq_planAfter]
        refine hle.2.2.2.2.2 _ ?_
        rw [hstep]
        exact addSeen_self _ _
      · intro _
        rw [build_sync_plan_eq_planAfter]
        refine hle.2.1 _ ?_
        rw [hstep]
        exact List.mem_append_right _ (List.mem_singleton.mpr rfl)
      · intro hnu2
        rw [hnu2] at hnu
        exact (Bool.false_ne_true hnu).elim
    · rw [Bool.not_eq_true] at hnu
      simp only [hnu, if_false, Bool.false_eq_true] at hstep
      refine ⟨?_, ?_, ?_, ?_, ?_, ?_⟩
      · rw [hstep, hnu, if_neg (by simp)]
        simp
      · rw [hstep, hnu, if_neg (by simp)]
      · rw [hstep]
      · rw [build_sync_plan_eq_planAfter]
        refine hle.2.2.2.2.2 _ ?_
        rw [hstep]
        exact addSeen_self _ _
      · intro hnu2
        rw [hnu2] at hnu
        exact (Bool.false_ne_true hnu.symm).elim
      · intro _
        rw [build_sync_plan_eq_planAfter]
        refine hle.2.2.2.1 _ ?_
        rw [hstep]
        exact List.mem_append_right _ (List.mem_singleton.mpr rfl)
  · intro hnone
    subst hnone
    refine ⟨?_, ?_, ?_⟩
    · rw [hstep]
    · rw [hstep]
    · rw [build_sync_plan_eq_planAfter]
      refine hle.2.2.1 _ ?_
      rw [hstep]
      exact List.mem_append_right _ (List.mem_singleton.mpr rfl)

/-- Witness for C2 at a concrete input: task "Fix the bug" with stale
identifier "PVTI_gone" and differing status, matched by title to item
"PVTI_real"; since the status differs, the rewritten pair is in update. -/
theorem claim_C2_witness :
    (({ title := "Fix the bug", status := "In Progress", board_item_id := some "PVTI_real" } : Task),
     ({ item_id := "PVTI_real", title := "Fix the bug", status := "Todo" } : ProjectItem))
      ∈ (build_sync_plan
          [{ title := "Fix the bug", status := "In Progress", board_item_id := some "PVTI_gone" }]
          [{ item_id := "PVTI_real", title := "Fix the bug", status := "Todo" }]
          none none none).update := by
  have h := (claim_C2
      [{ title := "Fix the bug", status := "In Progress", board_item_id := some "PVTI_gone" }]
      [{ item_id := "PVTI_real", title := "Fix the bug", status := "Todo" }]
      none none none 0 (by decide) "PVTI_gone" (by decide) (by decide) (by decide)
      (some { item_id := "PVTI_real", title := "Fix the bug", status := "Todo" })
      (by decide)).1
      { item_id := "PVTI_real", title := "Fix the bug", status := "Todo" } rfl
  exact h.2.2.2.2.1 (by decide)

/-! ## Claim C4 -/

/-- C4: evaluation of the embedded differ at the failing input of the source
test `test_due_date_change_triggers_update`: a task due 2025-12-01 against an
item due 2025-06-01 needs an update, while the same task without a due date
does not.  The claim itself is a code bug: the differ reads `task.due_date`
and the parser passes `due_date=` to the `Task` constructor, but the `Task`
dataclass in `models.py` declares no such field, so in Python the test input
raises `TypeError` on construction and the comparison raises
`AttributeError`; this theorem evaluates the differ on the model with the
field restored as the parser, differ, spec and tests all intend. -/
theorem claim_C4 :
    needs_update
      { title := "Task", status := "Todo", board_item_id := some "PVTI_1",
        due_date := some ⟨2025, 12, 1⟩ }
      { item_id := "PVTI_1", title := "Task", status := "Todo",
        due_date := some ⟨2025, 6, 1⟩ } = true
    ∧ needs_update
      { title := "Task", status := "Todo", board_item_id := some "PVTI_1" }
      { item_id := "PVTI_1", title := "Task", status := "Todo",
        due_date := some ⟨2025, 6, 1⟩ } = false := by decide

/-! ## Claim C5 -/

theorem planAfter_idmatch (tasks : List Task) (board_items : List ProjectItem)
    (k : Nat) (hk : k < tasks.length)
    (x : String) (hid : tasks[k].board_item_id = some x) (hx : x ≠ "")
    (bi : ProjectItem) (hfound : boardById board_items x = some bi) :
    planAfter tasks board_items (k + 1)
      = (if needs_update tasks[k] bi then
          { planAfter tasks board_items k with
            seen_board_ids := addSeen (planAfter tasks board_items k).seen_board_ids x,
            update := (planAfter tasks board_items k).update ++ [(tasks[k], bi)],
            tasks_out := (planAfter tasks board_items k).tasks_out ++ [tasks[k]] }
        else
          { planAfter tasks board_items k with
            seen_board_ids := addSeen (planAfter tasks board_items k).seen_board_ids x,
            unchanged := (planAfter tasks board_items k).unchanged ++ [tasks[k]],
            tasks_out := (planAfter tasks board_items k).tasks_out ++ [tasks[k]] }) := by
  have hgetD : tasks[k].board_item_id.getD "" = x := by rw [hid]; rfl
  have htruthy : optTruthy tasks[k].board_item_id = true := by
    rw [hid]; exact optTruthy_some hx
  rw [planAfter_succ tasks board_items k hk, planStep]
  simp only [hgetD, htruthy, hfound, if_true]

theorem needs_update_core_false (t : Task) (bi : ProjectItem)
    (h1 : t.title = bi.title)
    (h2 : t.status = "" ∨ strLower t.status = strLower bi.status)
    (h3 : strTrim t.description = strTrim bi.description)
    (h4 : t.due_date = none ∨ t.due_date = bi.due_date)
    (h5 : bi.content_type ≠ some "Issue") :
    needs_update t bi = false := by
  have e1 : (t.title != bi.title) = false := by simp [h1]
  have e2 : (!t.status.isEmpty && strLower t.status != strLower bi.status) = false := by
    rcases h2 with h2 | h2
    · rw [h2]
      rfl
    · simp [h2]
  have e3 : (strTrim t.description != strTrim bi.description) = false := by simp [h3]
  have e4 : (t.due_date.isSome && t.due_date != bi.due_date) = false := by
    rcases h4 with h4 | h4 <;> simp [h4]
  have e5 : (bi.content_type == some "Issue") = false := by
    simpa using h5
  unfold needs_update
  rw [e1, e2, e3, e4, e5]
  simp

/-- C5: assignee and label differences trigger an update only when the item
content kind is Issue.  First conjunct: for any other content kind the differ
result is independent of the task assignee and label set.  Second and third
conjuncts: on Issue content a truthy differing assignee, or a non-empty label
set with a different sorted form, makes the differ report an update.  Last
conjunct: a task matched by identifier to a non-Issue item whose title,
status, description and due date all agree lands in the unchanged bucket of
the plan regardless of its assignee and labels. -/
theorem claim_C5 (t : Task) (bi : ProjectItem) :
    (bi.content_type ≠ some "Issue" →
      ∀ a l, needs_update { t with assignee := a, labels := l } bi = needs_update t bi)
    ∧ (bi.content_type = some "Issue" → optTruthy t.assignee = true →
        t.assignee ≠ bi.assignee → needs_update t bi = true)
    ∧ (bi.content_type = some "Issue" → t.labels ≠ [] →
        sortedStrings t.labels ≠ sortedStrings bi.labels → needs_update t bi = true)
    ∧ (∀ (tasks : List Task) (board_items : List ProjectItem)
        (repo_owner repo_name repo_label : Option String) (k : Nat)
        (hk : k < tasks.length) (x : String),
        tasks[k] = t → t.board_item_id = some x → x ≠ "" →
        boardById board_items x = some bi →
        bi.content_type ≠ some "Issue" →
        t.title = bi.title →
        (t.status = "" ∨ strLower t.status = strLower bi.status) →
        strTrim t.description = strTrim bi.description →
        (t.due_date = none ∨ t.due_date = bi.due_date) →
        t ∈ (build_sync_plan tasks board_items repo_owner repo_name repo_label).unchanged) := by
  refine ⟨?_, ?_, ?_, ?_⟩
  · intro h5 a l
    have e5 : (bi.content_type == some "Issue") = false := by simpa using h5
    unfold needs_update
    rw [e5]
    simp
  · intro hIss hTruthy hNe
    have eIss : (bi.content_type == some "Issue") = true := by simp [hIss]
    have eA : (optTruthy t.assignee && t.assignee != bi.assignee) = true := by
      rw [hTruthy]
      simpa using hNe
    unfold needs_update
    rw [eIss, eA]
    simp
  · intro hIss hNe hSort
    have eIss : (bi.content_type == some "Issue") = true := by simp [hIss]
    have eL : (!t.labels.isEmpty && sortedStrings t.labels != sortedStrings bi.labels) = true := by
      have : t.labels.isEmpty = false := by
        cases hl : t.labels with
        | nil => exact absurd hl hNe
        | cons a as => rfl
      rw [this]
      simpa using hSort
    unfold needs_update
    rw [eIss, eL]
    simp
  · intro tasks board_items repo_owner repo_name repo_label k hk x ht hid hx hfound h5 h1 h2 h3 h4
    have hnu : needs_update t bi = false := needs_update_core_false t bi h1 h2 h3 h4 h5
    have hstep := planAfter_idmatch tasks board_items k hk x (ht ▸ hid) hx bi hfound
    rw [ht, hnu] at hstep
    simp only [Bool.false_eq_true, if_false] at hstep
    have hmem : t ∈ (planAfter tasks board_items (k + 1)).unchanged := by
      rw [hstep]
      exact List.mem_append_right _ (List.mem_singleton.mpr rfl)
    rw [build_sync_plan_eq_planAfter]
    exact (planAfter_le tasks board_items (k + 1) tasks.length (Nat.succ_le_of_lt hk)).2.2.2.1
      _ hmem

/-- Witness for C5 at a concrete input: an Issue item with a differing
assignee makes the differ report an update, and the same configuration on a
DraftIssue item lands the task in unchanged. -/
theorem claim_C5_witness :
    needs_update
      { title := "Task", status := "Todo", board_item_id := some "PVTI_1",
        assignee := some "alice" }
      { item_id := "PVTI_1", title := "Task", status := "Todo",
        content_type := some "Issue" } = true
    ∧ ({ title := "Task", status := "Todo", board_item_id := some "PVTI_1",
         assignee := some "alice" } : Task)
        ∈ (build_sync_plan
            [{ title := "Task", status := "Todo", board_item_id := some "PVTI_1",
               assignee := some "alice" }]
            [{ item_id := "PVTI_1", title := "Task", status := "Todo",
               content_type := some "DraftIssue" }]
            none none none).unchanged := by
  constructor
  · exact (claim_C5
      { title := "Task", status := "Todo", board_item_id := some "PVTI_1",
        assignee := some "alice" }
      { item_id := "PVTI_1", title := "Task", status := "Todo",
        content_type := some "Issue" }).2.1 rfl (by decide) (by decide)
  · exact (claim_C5
      { title := "Task", status := "Todo", board_item_id := some "PVTI_1",
        assignee := some "alice" }
      { item_id := "PVTI_1", title := "Task", status := "Todo",
        content_type := some "DraftIssue" }).2.2.2
      [{ title := "Task", status := "Todo", board_item_id := some "PVTI_1",
         assignee := some "alice" }]
      [{ item_id := "PVTI_1", title := "Task", status := "Todo",
         content_type := some "DraftIssue" }]
      none none none 0 (by decide) "PVTI_1" rfl rfl (by decide) (by decide)
      (by decide) rfl (Or.inr rfl) rfl (Or.inl rfl)

/-! ## Claim C7 -/

/-- C7 as stated is false on the code: with a repository owner and name scope
the archive filter of `build_sync_plan` compares only the item repository
fields and never examines the content kind, so an unclaimed item whose
content kind is unknown (here: `None`) but whose repository fields match the
scope still lands in the archive bucket, although its content is not an
Issue. -/
theorem claim_C7_counterexample :
    (build_sync_plan []
      [{ item_id := "X", title := "Orphan", status := "Todo",
         repo_owner := some "A", repo_name := some "R" }]
      (some "A") (some "R") none).archive.map
        (fun b => (b.item_id, b.content_type)) = [("X", none)] := by decide

theorem archive_scope_ok_iff (repo_owner repo_name repo_label : Option String)
    (bi : ProjectItem) :
    archive_scope_ok repo_owner repo_name repo_label bi = true ↔
      (if optTruthy repo_owner && optTruthy repo_name then
        bi.repo_owner = repo_owner ∧ bi.repo_name = repo_name
      else if optTruthy repo_label then (repo_label.getD "") ∈ bi.labels
      else True) := by
  unfold archive_scope_ok
  by_cases h1 : (optTruthy repo_owner && optTruthy repo_name) = true
  · rw [if_pos h1, if_pos h1]
    simp
  · rw [if_neg h1, if_neg h1]
    by_cases h2 : optTruthy repo_label = true
    · rw [if_pos h2, if_pos h2]
      simp
    · rw [if_neg h2, if_neg h2]
      simp

/-- C7 (amended): after all tasks are processed, an observed item lands in the
archive bucket exactly when it is in the observed list, its identifier was
claimed by no task, and it passes the scope filter; the scope filter with a
truthy repository owner and name requires only that the item repository
fields equal the scope (the content kind is never examined, so non-Issue
items from the scoped repository qualify too), otherwise with a truthy label
scope it requires the item to carry that label, and with no scope every
unclaimed item qualifies. -/
theorem claim_C7 (tasks : List Task) (board_items : List ProjectItem)
    (repo_owner repo_name repo_label : Option String) (bi : ProjectItem) :
    bi ∈ (build_sync_plan tasks board_items repo_owner repo_name repo_label).archive ↔
      (bi ∈ board_items
       ∧ bi.item_id ∉ (planAfter tasks board_items tasks.length).seen_board_ids
       ∧ (if optTruthy repo_owner && optTruthy repo_name then
            bi.repo_owner = repo_owner ∧ bi.repo_name = repo_name
          else if optTruthy repo_label then (repo_label.getD "") ∈ bi.labels
          else True)) := by
  rw [build_sync_plan_eq_planAfter]
  show bi ∈ List.filter _ board_items ↔ _
  rw [List.mem_filter]
  constructor
  · rintro ⟨hmem, hcond⟩
    rcases (Bool.and_eq_true _ _).mp hcond with ⟨hseen, hscope⟩
    refine ⟨hmem, ?_, (archive_scope_ok_iff repo_owner repo_name repo_label bi).mp hscope⟩
    intro habs
    rw [Bool.not_eq_true'] at hseen
    rw [show ((planAfter tasks board_items tasks.length).seen_board_ids.contains
      bi.item_id = true) from by simpa using habs] at hseen
    cases hseen
  · rintro ⟨hmem, hseen, hscope⟩
    refine ⟨hmem, (Bool.and_eq_true _ _).mpr ⟨?_, ?_⟩⟩
    · rw [Bool.not_eq_true']
      rw [← Bool.not_eq_true]
      intro hcon
      exact hseen (by simpa using hcon)
    · exact (archive_scope_ok_iff repo_owner repo_name repo_label bi).mpr hscope

/-! ## The executor: client interface, call trace, and state -/

/-- Project field, from `github_projects.py` (class `ProjectField`);
`options` is the name-to-option-id dict of a single-select field. -/
structure ProjectField where
  id : String
  name : String
  data_type : String := ""
  options : List (String × String) := []
deriving DecidableEq, Repr

/-- One remote mutation or lookup issued by the executor, with its arguments.
The constructor `reopen_issue` is part of the client surface the sync tests
mock (`tests/test_execute_sync.py` asserts on `client.reopen_issue`); it is
listed here so that theorems can speak about its absence from the trace. -/
inductive Call where
  | list_items
  | get_fields
  | add_draft_issue (title body : String)
  | create_issue (owner name title body : String)
  | add_item_to_project (content_id : String)
  | update_item_field_single_select (item_id field_id option_id : String)
  | update_item_field_date (item_id field_id : String) (value : Date)
  | update_draft_issue_body (draft_id title body : String)
  | update_issue (issue_id title body : String)
  | set_issue_assignees (issue_id : String) (user_ids : List String)
  | set_issue_labels (issue_id : String) (label_ids : List String)
  | resolve_user_id (login : String)
  | resolve_label_ids (owner name : String) (labels : List String)
  | archive_item (item_id : String)
  | unarchive_item (item_id : String)
  | reopen_issue (issue_id : String)
deriving DecidableEq, Repr

/-- Remote client, from `github_projects.py` (class `GitHubProjectClient`),
modelled as a record of pure response functions: a mutation either succeeds
with its return value or raises the carried error string.  `resolve_user_id`
and `resolve_label_ids` catch internally in the source and so are total.
Listing and field discovery are modelled as always succeeding: their failure
aborts the whole run before any per-item work, which no claim concerns. -/
structure Client where
  org : String
  list_items : List ProjectItem
  get_fields : List (String × ProjectField)
  add_draft_issue : String → String → Except String String
  create_issue : String → String → String → String → Except String String
  add_item_to_project : String → Except String String
  update_item_field_single_select : String → String → String → Except String Unit
  update_item_field_date : String → String → Date → Except String Unit
  update_draft_issue_body : String → String → String → Except String Unit
  update_issue : String → String → String → Except String Unit
  set_issue_assignees : String → List String → Except String Unit
  set_issue_labels : String → List String → Except String Unit
  resolve_user_id : String → Option String
  resolve_label_ids : String → String → List String → List String
  archive_item : String → Except String Unit
  unarchive_item : String → Except String Unit

/-- Sync result, from `sync.py` (class `SyncResult`).  The two identifier
dicts are modelled as assignment lists read through `dictGet`. -/
structure SyncResult where
  created : Nat := 0
  updated : Nat := 0
  archived : Nat := 0
  unarchived : Nat := 0
  unchanged : Nat := 0
  errors : List String := []
  created_ids : List (String × String) := []
  matched_ids : List (String × String) := []
deriving DecidableEq, Repr

/-- Python dict assignment `m[k] = v`, recorded as the latest binding. -/
def dictSet (m : List (String × String)) (k v : String) : List (String × String) :=
  m ++ [(k, v)]

/-- Python dict lookup: the latest binding for the key wins. -/
def dictGet (m : List (String × String)) (k : String) : Option String :=
  m.foldl (fun acc p => if p.1 == k then some p.2 else acc) none

/-- Executor state: the trace of client calls issued so far and the result
record being built. -/
structure ExecSt where
  trace : List Call := []
  res : SyncResult := {}
deriving DecidableEq, Repr

/-- State-passing executor computation: Python exceptions are the error
branch, the state persists across a raise (mutations already applied stand). -/
def Exec (α : Type) : Type := ExecSt → Except String α × ExecSt

def Exec.pureImpl (a : α) : Exec α := fun st => (Except.ok a, st)

def Exec.bindImpl (x : Exec α) (f : α → Exec β) : Exec β := fun st =>
  match x st with
  | (Except.ok a, st2) => f a st2
  | (Except.error e, st2) => (Except.error e, st2)

instance : Monad Exec where
  pure := Exec.pureImpl
  bind := Exec.bindImpl

/-- Record a client call in the trace and deliver the client response. -/
def emitCall (c : Call) (r : Except String α) : Exec α := fun st =>
  (r, { st with trace := st.trace ++ [c] })

/-- Mutate the result record. -/
def modifyRes (f : SyncResult → SyncResult) : Exec Unit := fun st =>
  (Except.ok (), { st with res := f st.res })

/-- Python `try`: catch any exception of the inner computation, keeping the
state it reached. -/
def attempt (x : Exec α) : Exec (Except String α) := fun st =>
  match x st with
  | (Except.ok a, st2) => (Except.ok (Except.ok a), st2)
  | (Except.error e, st2) => (Except.ok (Except.error e), st2)

/-- Dict lookup in the project field dict `fields`. -/
def fieldsGet (fields : List (String × ProjectField)) (name : String) : Option ProjectField :=
  (fields.find? (fun p => p.1 == name)).map (fun p => p.2)

/-- Status option matching `_match_status_option` from `sync.py`: exact name
match first, case-insensitive fallback second. -/
def match_status_option (task_status : String) (options : List (String × String)) :
    Option String :=
  match options.find? (fun p => p.1 == task_status) with
  | some p => some p.2
  | none => (options.find? (fun p => strLower p.1 == strLower task_status)).map (fun p => p.2)

/-- Status block of `_apply_task_fields`: match the task status against the
board options case-insensitively; no match is a warning, not a call. -/
def apply_status (client : Client) (item_id : String) (task : Task)
    (fields : List (String × ProjectField)) : Exec Unit :=
  if !task.status.isEmpty then
    match fieldsGet fields "Status" with
    | some status_field =>
        (match match_status_option task.status status_field.options with
         | some option_id =>
             emitCall (Call.update_item_field_single_select item_id status_field.id option_id)
               (client.update_item_field_single_select item_id status_field.id option_id)
         | none => pure ())
    | none => pure ()
  else pure ()

/-- Due-date block of `_apply_task_fields`: prefer the "End date" field,
fall back to "Due", skip silently when neither exists. -/
def apply_due (client : Client) (item_id : String) (task : Task)
    (fields : List (String × ProjectField)) : Exec Unit :=
  match task.due_date with
  | some d =>
      (match (fieldsGet fields "End date").orElse (fun _ => fieldsGet fields "Due") with
       | some due_field =>
           emitCall (Call.update_item_field_date item_id due_field.id d)
             (client.update_item_field_date item_id due_field.id d)
       | none => pure ())
  | none => pure ()

/-- Assignee and label block of `_apply_task_fields`: only on Issue content
with a truthy content identifier; unresolvable logins and label names are
skipped; labels are resolved against `(client.org, "")`. -/
def apply_content (client : Client) (task : Task)
    (board_item : Option ProjectItem) : Exec Unit :=
  match board_item with
  | some bi =>
      if bi.content_type == some "Issue" && optTruthy bi.content_id then
        (if optTruthy task.assignee && task.assignee != bi.assignee then
            emitCall (Call.resolve_user_id (task.assignee.getD ""))
              (Except.ok (client.resolve_user_id (task.assignee.getD "")))
            >>= fun user_id =>
            (match user_id with
             | some uid =>
                 emitCall (Call.set_issue_assignees (bi.content_id.getD "") [uid])
                   (client.set_issue_assignees (bi.content_id.getD "") [uid])
             | none => pure ())
          else pure ())
        >>= fun _ =>
        (if !task.labels.isEmpty
            && sortedStrings task.labels != sortedStrings bi.labels then
            emitCall (Call.resolve_label_ids client.org "" task.labels)
              (Except.ok (client.resolve_label_ids client.org "" task.labels))
            >>= fun label_ids =>
            (if !label_ids.isEmpty then
              emitCall (Call.set_issue_labels (bi.content_id.getD "") label_ids)
                (client.set_issue_labels (bi.content_id.getD "") label_ids)
             else pure ())
          else pure ())
      else pure ()
  | none => pure ()

/-- Field application `_apply_task_fields` from `sync.py`: status block, then
due-date block, then the Issue-only assignee and label block. -/
def apply_task_fields (client : Client) (item_id : String) (task : Task)
    (fields : List (String × ProjectField)) (board_item : Option ProjectItem) :
    Exec Unit :=
  apply_status client item_id task fields >>= fun _ =>
  apply_due client item_id task fields >>= fun _ =>
  apply_content client task board_item

/-- Unarchive-loop body of `execute_sync` for one task: the only remote call
is the unarchive mutation; exceptions become one error naming the title. -/
def unarchive_one (client : Client) (task : Task) : Exec Unit :=
  attempt (
    if optTruthy task.board_item_id then
      emitCall (Call.unarchive_item (task.board_item_id.getD ""))
        (client.unarchive_item (task.board_item_id.getD ""))
      >>= fun _ => modifyRes (fun res => { res with unarchived := res.unarchived + 1 })
    else pure ())
  >>= fun r => match r with
  | Except.ok _ => pure ()
  | Except.error e =>
      modifyRes (fun res => { res with errors := res.errors
        ++ ["Failed to unarchive \x27" ++ task.title ++ "\x27: " ++ e] })

/-- Create-loop body of `execute_sync` for one task: with a truthy repository
scope create a real Issue and attach it, otherwise create a Draft; then apply
fields; on success record the new item identifier under the task title. -/
def create_one (client : Client) (repo_owner repo_name : Option String)
    (fields : List (String × ProjectField)) (task : Task) : Exec Unit :=
  attempt (
    if optTruthy repo_owner && optTruthy repo_name then
      emitCall (Call.create_issue (repo_owner.getD "") (repo_name.getD "")
          task.title task.description)
        (client.create_issue (repo_owner.getD "") (repo_name.getD "")
          task.title task.description)
      >>= fun issue_id =>
      emitCall (Call.add_item_to_project issue_id) (client.add_item_to_project issue_id)
      >>= fun item_id =>
      apply_task_fields client item_id task fields (some
        { item_id := item_id, content_id := some issue_id, content_type := some "Issue",
          title := task.title, status := task.status, assignee := none, labels := [],
          due_date := none, description := task.description })
      >>= fun _ => pure item_id
    else
      emitCall (Call.add_draft_issue task.title task.description)
        (client.add_draft_issue task.title task.description)
      >>= fun item_id =>
      apply_task_fields client item_id task fields none
      >>= fun _ => pure item_id)
  >>= fun r => match r with
  | Except.ok item_id =>
      modifyRes (fun res => { res with
        created := res.created + 1,
        created_ids := dictSet res.created_ids task.title item_id })
  | Except.error e =>
      modifyRes (fun res => { res with errors := res.errors
        ++ ["Failed to create \x27" ++ task.title ++ "\x27: " ++ e] })

/-- Update-loop body of `execute_sync` for one matched pair; with a truthy
repository scope a Draft pair is first converted: create a real Issue with
the task title and description, attach it, archive the old Draft item
(failure tolerated), record the new item identifier in the created map, and
aim all following work at the new Issue.  The in-memory rebinding of the
task identifier is not modelled as nothing later reads it; the writeback
repair goes through `created_ids`. -/
def update_one (client : Client) (repo_owner repo_name : Option String)
    (fields : List (String × ProjectField)) (pair : Task × ProjectItem) : Exec Unit :=
  attempt (
    (if optTruthy repo_owner && optTruthy repo_name
        && pair.2.content_type == some "DraftIssue" then
      emitCall (Call.create_issue (repo_owner.getD "") (repo_name.getD "")
          pair.1.title pair.1.description)
        (client.create_issue (repo_owner.getD "") (repo_name.getD "")
          pair.1.title pair.1.description)
      >>= fun issue_id =>
      emitCall (Call.add_item_to_project issue_id) (client.add_item_to_project issue_id)
      >>= fun new_item_id =>
      attempt (emitCall (Call.archive_item pair.2.item_id)
        (client.archive_item pair.2.item_id))
      >>= fun _ =>
      modifyRes (fun res => { res with
        created_ids := dictSet res.created_ids pair.1.title new_item_id })
      >>= fun _ =>
      pure { item_id := new_item_id, content_id := some issue_id,
             content_type := some "Issue", title := pair.1.title, status := pair.2.status,
             assignee := none, labels := [], due_date := none,
             description := pair.1.description, repo_owner := none, repo_name := none }
    else pure pair.2)
    >>= fun board_item =>
    apply_task_fields client board_item.item_id pair.1 fields (some board_item)
    >>= fun _ =>
    (if optTruthy board_item.content_id then
      attempt (
        if board_item.content_type == some "DraftIssue" then
          emitCall (Call.update_draft_issue_body (board_item.content_id.getD "")
              pair.1.title pair.1.description)
            (client.update_draft_issue_body (board_item.content_id.getD "")
              pair.1.title pair.1.description)
        else if board_item.content_type == some "Issue" then
          emitCall (Call.update_issue (board_item.content_id.getD "")
              pair.1.title pair.1.description)
            (client.update_issue (board_item.content_id.getD "")
              pair.1.title pair.1.description)
        else pure ())
      >>= fun _ => pure ()
    else pure ())
    >>= fun _ =>
    modifyRes (fun res => { res with updated := res.updated + 1 }))
  >>= fun r => match r with
  | Except.ok _ => pure ()
  | Except.error e =>
      modifyRes (fun res => { res with errors := res.errors
        ++ ["Failed to update \x27" ++ pair.1.title ++ "\x27: " ++ e] })

/-- Archive-loop body of `execute_sync` for one board item. -/
def archive_one (client : Client) (board_item : ProjectItem) : Exec Unit :=
  attempt (
    emitCall (Call.archive_item board_item.item_id) (client.archive_item board_item.item_id)
    >>= fun _ => modifyRes (fun res => { res with archived := res.archived + 1 }))
  >>= fun r => match r with
  | Except.ok _ => pure ()
  | Except.error e =>
      modifyRes (fun res => { res with errors := res.errors
        ++ ["Failed to archive \x27" ++ board_item.title ++ "\x27: " ++ e] })

/-- Post-planning step of `execute_sync` (source lines 165-175): with a truthy
repository scope, move every unchanged task whose board item is a Draft into
the update bucket so the run converts it. -/
def convert_unchanged_drafts (plan : SyncPlan) (board_items : List ProjectItem)
    (repo_owner repo_name : Option String) : SyncPlan :=
  if optTruthy repo_owner && optTruthy repo_name then
    let r := plan.unchanged.foldl
      (fun (acc : List (Task × ProjectItem) × List Task) task =>
        match boardById board_items (task.board_item_id.getD "") with
        | some bi =>
            if bi.content_type == some "DraftIssue" then (acc.1 ++ [(task, bi)], acc.2)
            else (acc.1, acc.2 ++ [task])
        | none => (acc.1, acc.2 ++ [task]))
      (plan.update, [])
    { plan with update := r.1, unchanged := r.2 }
  else plan

/-- Matched-identifier recording of `execute_sync` (source lines 186-195),
performed before any mutation. -/
def record_matched_ids (plan : SyncPlan) (res : SyncResult) : SyncResult :=
  let res := plan.update.foldl (fun res pr =>
    if plan.tasks_out.any (fun t =>
        (t.board_item_id == none || t.board_item_id == some pr.2.item_id)
        && t.title == pr.1.title) then
      { res with matched_ids := dictSet res.matched_ids pr.1.title pr.2.item_id }
    else res) res
  let res := plan.unchanged.foldl (fun res t =>
    if optTruthy t.board_item_id then
      { res with matched_ids := dictSet res.matched_ids t.title (t.board_item_id.getD "") }
    else res) res
  plan.unarchive.foldl (fun res t =>
    if optTruthy t.board_item_id then
      { res with matched_ids := dictSet res.matched_ids t.title (t.board_item_id.getD "") }
    else res) res

/-- Full sync execution `execute_sync` from `sync.py`: list, plan, convert
Drafts under a repository scope, record matched identifiers, then in order
unarchive, create, update, archive, tolerating per-item failure.  Returns the
result record and the full trace of client calls. -/
def execute_sync (client : Client) (tasks : List Task)
    (repo_label repo_owner repo_name : Option String) (dry_run : Bool) :
    SyncResult × List Call :=
  let run : Exec Unit := do
    let board_items ← emitCall Call.list_items (Except.ok client.list_items)
    let plan := convert_unchanged_drafts
      (build_sync_plan tasks board_items repo_owner repo_name repo_label)
      board_items repo_owner repo_name
    modifyRes (record_matched_ids plan)
    if dry_run then
      modifyRes (fun res => { res with
        created := plan.create.length,
        updated := plan.update.length,
        archived := plan.archive.length,
        unarchived := plan.unarchive.length,
        unchanged := plan.unchanged.length })
    else do
      let fields ← emitCall Call.get_fields (Except.ok client.get_fields)
      plan.unarchive.forM (unarchive_one client)
      plan.create.forM (create_one client repo_owner repo_name fields)
      plan.update.forM (update_one client repo_owner repo_name fields)
      plan.archive.forM (archive_one client)
      modifyRes (fun res => { res with unchanged := plan.unchanged.length })
  match run {} with
  | (_, st) => (st.res, st.trace)

/-- Remote client configured like the mock of `tests/test_execute_sync.py`. -/
def stubClient : Client where
  org := "harmoniqs"
  list_items := []
  get_fields := [("Status",
    { id := "F_status",
      name := "Status",
      data_type := "SINGLE_SELECT",
      options := [("Todo", "OPT_todo"), ("In Progress", "OPT_ip"), ("Done", "OPT_done")] })]
  add_draft_issue := fun _ _ => Except.ok "PVTI_new"
  create_issue := fun _ _ _ _ => Except.ok "I_new"
  add_item_to_project := fun _ => Except.ok "PVTI_new_issue"
  update_item_field_single_select := fun _ _ _ => Except.ok ()
  update_item_field_date := fun _ _ _ => Except.ok ()
  update_draft_issue_body := fun _ _ _ => Except.ok ()
  update_issue := fun _ _ _ => Except.ok ()
  set_issue_assignees := fun _ _ => Except.ok ()
  set_issue_labels := fun _ _ => Except.ok ()
  resolve_user_id := fun _ => some "U_alice123"
  resolve_label_ids := fun _ _ _ => ["LA_bug", "LA_docs"]
  archive_item := fun _ => Except.ok ()
  unarchive_item := fun _ => Except.ok ()

example :
    (execute_sync { stubClient with list_items := [] }
      [{ title := "New task", status := "Todo" }]
      none none none false).2
    = [Call.list_items, Call.get_fields,
       Call.add_draft_issue "New task" "",
       Call.update_item_field_single_select "PVTI_new" "F_status" "OPT_todo"] := by decide

/-! ## A small program logic for the executor -/

/-- Characterization of one executor computation: it returns `r`, appends
exactly `τ` to the trace, and transforms the result record by `g`. -/
def RunsWith (x : Exec α) (r : Except String α) (τ : List Call)
    (g : SyncResult → SyncResult) : Prop :=
  ∀ st, x st = (r, { trace := st.trace ++ τ, res := g st.res })

theorem RunsWith.pureR (a : α) : RunsWith (pure a) (Except.ok a) [] id := by
  intro st
  show Exec.pureImpl a st = _
  simp [Exec.pureImpl]

theorem RunsWith.emit (c : Call) (r : Except String α) : RunsWith (emitCall c r) r [c] id := by
  intro st
  simp [emitCall]

theorem RunsWith.modify (f : SyncResult → SyncResult) :
    RunsWith (modifyRes f) (Except.ok ()) [] f := by
  intro st
  simp [modifyRes]

theorem RunsWith.bind_ok {x : Exec α} {f : α → Exec β} {a : α} {τ1 : List Call}
    {g1 : SyncResult → SyncResult} {r : Except String β} {τ2 : List Call}
    {g2 : SyncResult → SyncResult}
    (hx : RunsWith x (Except.ok a) τ1 g1) (hf : RunsWith (f a) r τ2 g2) :
    RunsWith (x >>= f) r (τ1 ++ τ2) (g2 ∘ g1) := by
  intro st
  have hdef : (x >>= f) st = (match x st with
    | (Except.ok a, st2) => f a st2
    | (Except.error e, st2) => (Except.error e, st2)) := rfl
  rw [hdef, hx st]
  show f a { trace := st.trace ++ τ1, res := g1 st.res } = _
  rw [hf]
  simp [Function.comp]

theorem RunsWith.bind_err {x : Exec α} {f : α → Exec β} {e : String} {τ1 : List Call}
    {g1 : SyncResult → SyncResult}
    (hx : RunsWith x (Except.error e) τ1 g1) :
    RunsWith (x >>= f) (Except.error e) τ1 g1 := by
  intro st
  have hdef : (x >>= f) st = (match x st with
    | (Except.ok a, st2) => f a st2
    | (Except.error e, st2) => (Except.error e, st2)) := rfl
  rw [hdef, hx st]

theorem RunsWith.attemptR {x : Exec α} {r : Except String α} {τ : List Call}
    {g : SyncResult → SyncResult} (hx : RunsWith x r τ g) :
    RunsWith (attempt x) (Except.ok r) τ g := by
  intro st
  have hdef : attempt x st = (match x st with
    | (Except.ok a, st2) => (Except.ok (Except.ok a), st2)
    | (Except.error e, st2) => (Except.ok (Except.error e), st2)) := rfl
  rw [hdef, hx st]
  cases r <;> rfl

/-- Remote node identifiers a call mutates (board item or content node). -/
def callItemIds : Call → List String
  | Call.update_item_field_single_select item_id _ _ => [item_id]
  | Call.update_item_field_date item_id _ _ => [item_id]
  | Call.update_draft_issue_body draft_id _ _ => [draft_id]
  | Call.update_issue issue_id _ _ => [issue_id]
  | Call.set_issue_assignees issue_id _ => [issue_id]
  | Call.set_issue_labels issue_id _ => [issue_id]
  | Call.archive_item item_id => [item_id]
  | Call.unarchive_item item_id => [item_id]
  | Call.reopen_issue issue_id => [issue_id]
  | _ => []

/-- Identifier freshly handed out by the client during this run: the success
value of a creation call. -/
def ClientGenerated (client : Client) (s : String) : Prop :=
  (∃ t b, client.add_draft_issue t b = Except.ok s)
  ∨ (∃ o n t b, client.create_issue o n t b = Except.ok s)
  ∨ (∃ cid, client.add_item_to_project cid = Except.ok s)

/-- Sequencing of two trace-only computations whose calls all satisfy `p`. -/
theorem seqFrame {p : Call → Prop} {x y : Exec Unit}
    (hx : ∃ r τ, RunsWith x r τ id ∧ ∀ c ∈ τ, p c)
    (hy : ∃ r τ, RunsWith y r τ id ∧ ∀ c ∈ τ, p c) :
    ∃ r τ, RunsWith (x >>= fun _ => y) r τ id ∧ ∀ c ∈ τ, p c := by
  obtain ⟨r1, τ1, h1, hp1⟩ := hx
  cases r1 with
  | ok a =>
      obtain ⟨r2, τ2, h2, hp2⟩ := hy
      have hb : RunsWith (x >>= fun _ => y) r2 (τ1 ++ τ2) (id ∘ id) :=
        RunsWith.bind_ok h1 h2
      refine ⟨r2, τ1 ++ τ2, hb, ?_⟩
      intro c hc
      rcases List.mem_append.mp hc with hc | hc
      · exact hp1 c hc
      · exact hp2 c hc
  | error e => exact ⟨Except.error e, τ1, RunsWith.bind_err h1, hp1⟩

theorem apply_status_runs (client : Client) (item_id : String) (task : Task)
    (fields : List (String × ProjectField)) :
    ∃ r τ, RunsWith (apply_status client item_id task fields) r τ id
      ∧ ∀ c ∈ τ, ∀ s ∈ callItemIds c, s = item_id := by
  unfold apply_status
  split
  · split
    · split
      · refine ⟨_, _, RunsWith.emit _ _, ?_⟩
        intro c hc s hs
        rw [List.mem_singleton] at hc
        subst hc
        simpa [callItemIds] using hs
      · exact ⟨Except.ok (), [], RunsWith.pureR (), by intro c hc; cases hc⟩
    · exact ⟨Except.ok (), [], RunsWith.pureR (), by intro c hc; cases hc⟩
  · exact ⟨Except.ok (), [], RunsWith.pureR (), by intro c hc; cases hc⟩

theorem apply_due_runs (client : Client) (item_id : String) (task : Task)
    (fields : List (String × ProjectField)) :
    ∃ r τ, RunsWith (apply_due client item_id task fields) r τ id
      ∧ ∀ c ∈ τ, ∀ s ∈ callItemIds c, s = item_id := by
  unfold apply_due
  split
  · split
    · refine ⟨_, _, RunsWith.emit _ _, ?_⟩
      intro c hc s hs
      rw [List.mem_singleton] at hc
      subst hc
      simpa [callItemIds] using hs
    · exact ⟨Except.ok (), [], RunsWith.pureR (), by intro c hc; cases hc⟩
  · exact ⟨Except.ok (), [], RunsWith.pureR (), by intro c hc; cases hc⟩

theorem apply_content_runs (client : Client) (task : Task)
    (board_item : Option ProjectItem) :
    ∃ r τ, RunsWith (apply_content client task board_item) r τ id
      ∧ ∀ c ∈ τ, ∀ s ∈ callItemIds c,
          ∃ bi, board_item = some bi ∧ bi.content_id = some s := by
  unfold apply_content
  split
  case h_2 => exact ⟨Except.ok (), [], RunsWith.pureR (), by intro c hc; cases hc⟩
  case h_1 a bi =>
  by_cases hg : (bi.content_type == some "Issue" && optTruthy bi.content_id) = true
  case neg =>
    rw [if_neg hg]
    exact ⟨Except.ok (), [], RunsWith.pureR (), by intro c hc; cases hc⟩
  case pos =>
  rw [if_pos hg]
  have hcid : bi.content_id = some (bi.content_id.getD "") := by
    rcases (Bool.and_eq_true _ _).mp hg with ⟨_, ht⟩
    cases hc2 : bi.content_id with
    | none =>
        rw [hc2] at ht
        exact absurd ht (by decide)
    | some s => rfl
  refine seqFrame ?_ ?_
  · by_cases ha : (optTruthy task.assignee && task.assignee != bi.assignee) = true
    · rw [if_pos ha]
      cases hu : client.resolve_user_id (task.assignee.getD "") with
      | some uid =>
          refine ⟨_, [Call.resolve_user_id (task.assignee.getD "")]
              ++ [Call.set_issue_assignees (bi.content_id.getD "") [uid]],
            RunsWith.bind_ok (RunsWith.emit _ _) (RunsWith.emit _ _), ?_⟩
          intro c hc s hs
          rcases List.mem_append.mp hc with hc | hc <;>
            rw [List.mem_singleton] at hc <;> subst hc
          · cases hs
          · rw [show callItemIds (Call.set_issue_assignees (bi.content_id.getD "") [uid])
                = [bi.content_id.getD ""] from rfl, List.mem_singleton] at hs
            subst hs
            exact ⟨bi, rfl, hcid⟩
      | none =>
          refine ⟨_, [Call.resolve_user_id (task.assignee.getD "")] ++ [],
            RunsWith.bind_ok (RunsWith.emit _ _) (RunsWith.pureR ()), ?_⟩
          intro c hc s hs
          rcases List.mem_append.mp hc with hc | hc
          · rw [List.mem_singleton] at hc
            subst hc
            cases hs
          · cases hc
    · rw [if_neg ha]
      exact ⟨Except.ok (), [], RunsWith.pureR (), by intro c hc; cases hc⟩
  · by_cases hl : (!task.labels.isEmpty
        && sortedStrings task.labels != sortedStrings bi.labels) = true
    · rw [if_pos hl]
      by_cases hres : (!(client.resolve_label_ids client.org "" task.labels).isEmpty) = true
      · have hf : RunsWith
            (if !(client.resolve_label_ids client.org "" task.labels).isEmpty then
              emitCall (Call.set_issue_labels (bi.content_id.getD "")
                  (client.resolve_label_ids client.org "" task.labels))
                (client.set_issue_labels (bi.content_id.getD "")
                  (client.resolve_label_ids client.org "" task.labels))
            else pure ())
            (client.set_issue_labels (bi.content_id.getD "")
              (client.resolve_label_ids client.org "" task.labels))
            [Call.set_issue_labels (bi.content_id.getD "")
              (client.resolve_label_ids client.org "" task.labels)] id := by
          rw [if_pos hres]
          exact RunsWith.emit _ _
        refine ⟨_, [Call.resolve_label_ids client.org "" task.labels]
            ++ [Call.set_issue_labels (bi.content_id.getD "")
              (client.resolve_label_ids client.org "" task.labels)],
          RunsWith.bind_ok (RunsWith.emit _ _) hf, ?_⟩
        intro c hc s hs
        rcases List.mem_append.mp hc with hc | hc <;>
          rw [List.mem_singleton] at hc <;> subst hc
        · cases hs
        · rw [show callItemIds (Call.set_issue_labels (bi.content_id.getD "")
              (client.resolve_label_ids client.org "" task.labels))
              = [bi.content_id.getD ""] from rfl, List.mem_singleton] at hs
          subst hs
          exact ⟨bi, rfl, hcid⟩
      · have hf : RunsWith
            (if !(client.resolve_label_ids client.org "" task.labels).isEmpty then
              emitCall (Call.set_issue_labels (bi.content_id.getD "")
                  (client.resolve_label_ids client.org "" task.labels))
                (client.set_issue_labels (bi.content_id.getD "")
                  (client.resolve_label_ids client.org "" task.labels))
            else pure ())
            (Except.ok ()) [] id := by
          rw [if_neg hres]
          exact RunsWith.pureR ()
        refine ⟨_, [Call.resolve_label_ids client.org "" task.labels] ++ [],
          RunsWith.bind_ok (RunsWith.emit _ _) hf, ?_⟩
        intro c hc s hs
        rcases List.mem_append.mp hc with hc | hc
        · rw [List.mem_singleton] at hc
          subst hc
          cases hs
        · cases hc
    · rw [if_neg hl]
      exact ⟨Except.ok (), [], RunsWith.pureR (), by intro c hc; cases hc⟩

/-- Trace frame of `_apply_task_fields`: whatever the client responses, the
block issues some sequence of calls, every one of which mutates only the
item `item_id` or the content node of the supplied board item. -/
theorem apply_task_fields_runs (client : Client) (item_id : String) (task : Task)
    (fields : List (String × ProjectField)) (board_item : Option ProjectItem) :
    ∃ r τ, RunsWith (apply_task_fields client item_id task fields board_item) r τ id
      ∧ ∀ c ∈ τ, ∀ s ∈ callItemIds c,
          s = item_id ∨ ∃ bi, board_item = some bi ∧ bi.content_id = some s := by
  unfold apply_task_fields
  refine seqFrame ?_ (seqFrame ?_ ?_)
  · obtain ⟨r, τ, hr, hp⟩ := apply_status_runs client item_id task fields
    exact ⟨r, τ, hr, fun c hc s hs => Or.inl (hp c hc s hs)⟩
  · obtain ⟨r, τ, hr, hp⟩ := apply_due_runs client item_id task fields
    exact ⟨r, τ, hr, fun c hc s hs => Or.inl (hp c hc s hs)⟩
  · obtain ⟨r, τ, hr, hp⟩ := apply_content_runs client task board_item
    exact ⟨r, τ, hr, fun c hc s hs => Or.inr (hp c hc s hs)⟩

/-- Result transformations of the per-item bodies: they never touch the
error list (errors are only appended by the per-item exception handler) and
never touch the matched-identifier map. -/
def NonErrG (g : SyncResult → SyncResult) : Prop :=
  (∀ r es2, g { r with errors := es2 } = { g r with errors := es2 })
  ∧ (∀ r, (g r).matched_ids = r.matched_ids)

theorem NonErrG.id : NonErrG id := ⟨fun _ _ => rfl, fun _ => rfl⟩

theorem NonErrG.errors_eq {g : SyncResult → SyncResult} (hg : NonErrG g)
    (r : SyncResult) : (g r).errors = r.errors := by
  have h := hg.1 r r.errors
  rw [show ({ r with errors := r.errors } : SyncResult) = r from rfl] at h
  rw [h]

theorem NonErrG.comp {g1 g2 : SyncResult → SyncResult} (h1 : NonErrG g1)
    (h2 : NonErrG g2) : NonErrG (g2 ∘ g1) := by
  constructor
  · intro r es2
    show g2 (g1 { r with errors := es2 }) = _
    rw [h1.1, h2.1]
    rfl
  · intro r
    show (g2 (g1 r)).matched_ids = r.matched_ids
    rw [h2.2, h1.2]

/-- Replace the trace and result-transformation components of a
characterization by equal ones. -/
theorem RunsWith.congr {x : Exec α} {r : Except String α} {τ1 τ2 : List Call}
    {G1 G2 : SyncResult → SyncResult} (h : RunsWith x r τ1 G1)
    (hτ : τ1 = τ2) (hG : ∀ s, G1 s = G2 s) : RunsWith x r τ2 G2 := by
  intro st
  rw [h st, hτ, hG]

/-- Full characterization of a per-item executor step: it always returns
successfully (the handler caught any exception), appends exactly `τ` to the
trace, transforms counters and identifier maps by the error-agnostic `g`,
and appends exactly `es` to the error list. -/
def RunsTo (f : Exec Unit) (τ : List Call) (g : SyncResult → SyncResult)
    (es : List String) : Prop :=
  NonErrG g ∧
  RunsWith f (Except.ok ()) τ (fun r => { g r with errors := r.errors ++ es })

theorem RunsTo.pure0 : RunsTo (pure ()) [] id [] := by
  refine ⟨NonErrG.id, RunsWith.congr (RunsWith.pureR ()) rfl fun s => ?_⟩
  show s = { s with errors := s.errors ++ [] }
  rw [List.append_nil]

theorem RunsTo.seq {f1 f2 : Exec Unit} {τ1 τ2 : List Call}
    {g1 g2 : SyncResult → SyncResult} {es1 es2 : List String}
    (h1 : RunsTo f1 τ1 g1 es1) (h2 : RunsTo f2 τ2 g2 es2) :
    RunsTo (f1 >>= fun _ => f2) (τ1 ++ τ2) (g2 ∘ g1) (es1 ++ es2) := by
  obtain ⟨hg1, hr1⟩ := h1
  obtain ⟨hg2, hr2⟩ := h2
  refine ⟨NonErrG.comp hg1 hg2, RunsWith.congr (RunsWith.bind_ok hr1 hr2) rfl fun s => ?_⟩
  show { g2 { g1 s with errors := s.errors ++ es1 } with
      errors := ({ g1 s with errors := s.errors ++ es1 } : SyncResult).errors ++ es2 } = _
  rw [hg2.1]
  show { g2 (g1 s) with errors := (s.errors ++ es1) ++ es2 } = _
  rw [List.append_assoc]
  rfl

/-- Handler shape shared by the unarchive, update and archive loop bodies:
run the try-block, swallow its success, and on failure append exactly one
message built from the exception text. -/
theorem runs_attempt_pureHandler {inner : Exec Unit} {r : Except String Unit}
    {τ : List Call} {g : SyncResult → SyncResult}
    (hin : RunsWith inner r τ g) (hg : NonErrG g) (msg : String → String) :
    RunsTo (attempt inner >>= fun r2 => match r2 with
        | Except.ok _ => pure ()
        | Except.error e => modifyRes (fun res => { res with
            errors := res.errors ++ [msg e] }))
      τ g (match r with | Except.ok _ => [] | Except.error e => [msg e]) := by
  refine ⟨hg, ?_⟩
  cases r with
  | ok a =>
      have hb : RunsWith (attempt inner >>= fun r2 => match r2 with
          | Except.ok _ => pure ()
          | Except.error e => modifyRes (fun res => { res with
              errors := res.errors ++ [msg e] }))
          (Except.ok ()) (τ ++ []) (id ∘ g) :=
        RunsWith.bind_ok (RunsWith.attemptR hin) (RunsWith.pureR ())
      refine RunsWith.congr hb (List.append_nil τ) fun s => ?_
      show g s = { g s with errors := s.errors ++ [] }
      rw [List.append_nil, ← hg.errors_eq s]
  | error e =>
      have hb : RunsWith (attempt inner >>= fun r2 => match r2 with
          | Except.ok _ => pure ()
          | Except.error e => modifyRes (fun res => { res with
              errors := res.errors ++ [msg e] }))
          (Except.ok ()) (τ ++ [])
          ((fun res => { res with errors := res.errors ++ [msg e] }) ∘ g) :=
        RunsWith.bind_ok (RunsWith.attemptR hin)
          (RunsWith.modify (fun res => { res with errors := res.errors ++ [msg e] }))
      refine RunsWith.congr hb (List.append_nil τ) fun s => ?_
      show { g s with errors := (g s).errors ++ [msg e] } = _
      rw [hg.errors_eq s]

/-- Handler shape of the create loop body: on success bump the created
counter and record the new identifier under the task title; on failure
append exactly one message. -/
theorem runs_attempt_createHandler {inner : Exec String} {r : Except String String}
    {τ : List Call} {g : SyncResult → SyncResult}
    (hin : RunsWith inner r τ g) (hg : NonErrG g) (t : Task) :
    RunsTo (attempt inner >>= fun r2 => match r2 with
        | Except.ok item_id => modifyRes (fun res => { res with
            created := res.created + 1,
            created_ids := dictSet res.created_ids t.title item_id })
        | Except.error e => modifyRes (fun res => { res with
            errors := res.errors
              ++ ["Failed to create \x27" ++ t.title ++ "\x27: " ++ e] }))
      τ
      (match r with
       | Except.ok item_id => fun res => { g res with
           created := (g res).created + 1,
           created_ids := dictSet (g res).created_ids t.title item_id }
       | Except.error _ => g)
      (match r with
       | Except.ok _ => []
       | Except.error e => ["Failed to create \x27" ++ t.title ++ "\x27: " ++ e]) := by
  cases r with
  | ok item_id =>
      show RunsTo _ τ (fun res => { g res with
        created := (g res).created + 1,
        created_ids := dictSet (g res).created_ids t.title item_id }) []
      refine ⟨?_, ?_⟩
      · constructor
        · intro r2 es2
          show { g { r2 with errors := es2 } with
              created := (g { r2 with errors := es2 }).created + 1,
              created_ids := dictSet (g { r2 with errors := es2 }).created_ids t.title item_id } = _
          rw [hg.1]
        · intro r2
          show (g r2).matched_ids = r2.matched_ids
          exact hg.2 r2
      · have hb : RunsWith (attempt inner >>= fun r2 => match r2 with
            | Except.ok item_id => modifyRes (fun res => { res with
                created := res.created + 1,
                created_ids := dictSet res.created_ids t.title item_id })
            | Except.error e => modifyRes (fun res => { res with
                errors := res.errors
                  ++ ["Failed to create \x27" ++ t.title ++ "\x27: " ++ e] }))
            (Except.ok ()) (τ ++ [])
            ((fun res => ({ res with
              created := res.created + 1,
              created_ids := dictSet res.created_ids t.title item_id } : SyncResult)) ∘ g) :=
          RunsWith.bind_ok (RunsWith.attemptR hin)
            (RunsWith.modify (fun res => { res with
              created := res.created + 1,
              created_ids := dictSet res.created_ids t.title item_id }))
        refine RunsWith.congr hb (List.append_nil τ) fun s => ?_
        rw [List.append_nil, ← hg.errors_eq s]
        rfl
  | error e =>
      show RunsTo _ τ g ["Failed to create \x27" ++ t.title ++ "\x27: " ++ e]
      refine ⟨hg, ?_⟩
      have hb : RunsWith (attempt inner >>= fun r2 => match r2 with
          | Except.ok item_id => modifyRes (fun res => { res with
              created := res.created + 1,
              created_ids := dictSet res.created_ids t.title item_id })
          | Except.error e => modifyRes (fun res => { res with
              errors := res.errors
                ++ ["Failed to create \x27" ++ t.title ++ "\x27: " ++ e] }))
          (Except.ok ()) (τ ++ [])
          ((fun res => ({ res with errors := res.errors
            ++ ["Failed to create \x27" ++ t.title ++ "\x27: " ++ e] } : SyncResult)) ∘ g) :=
        RunsWith.bind_ok (RunsWith.attemptR hin)
          (RunsWith.modify (fun res => { res with errors := res.errors
            ++ ["Failed to create \x27" ++ t.title ++ "\x27: " ++ e] }))
      refine RunsWith.congr hb (List.append_nil τ) fun s => ?_
      show { g s with errors := (g s).errors
          ++ ["Failed to create \x27" ++ t.title ++ "\x27: " ++ e] } = _
      rw [hg.errors_eq s]

/-- Emitting a call whose response is a success, then continuing with the
response value. -/
theorem RunsWith.emit_bind {α β : Type} {c : Call} {rsp : Except String α}
    {f : α → Exec β} {a : α} (h : rsp = Except.ok a) {r : Except String β}
    {τ2 : List Call} {g2 : SyncResult → SyncResult}
    (hf : RunsWith (f a) r τ2 g2) :
    RunsWith (emitCall c rsp >>= f) r (c :: τ2) g2 := by
  intro st
  have hdef : (emitCall c rsp >>= f) st = (match emitCall c rsp st with
    | (Except.ok a, st2) => f a st2
    | (Except.error e, st2) => (Except.error e, st2)) := rfl
  rw [hdef]
  show (match (rsp, { st with trace := st.trace ++ [c] }) with
    | (Except.ok a, st2) => f a st2
    | (Except.error e, st2) => (Except.error e, st2)) = _
  rw [h]
  show f a { st with trace := st.trace ++ [c] } = _
  rw [hf]
  simp

/-- Emitting a call whose response is a failure aborts the continuation. -/
theorem RunsWith.emit_bind_err {α β : Type} {c : Call} {rsp : Except String α}
    {f : α → Exec β} {e : String} (h : rsp = Except.error e) :
    RunsWith (emitCall c rsp >>= f) (Except.error e) [c] id := by
  intro st
  have hdef : (emitCall c rsp >>= f) st = (match emitCall c rsp st with
    | (Except.ok a, st2) => f a st2
    | (Except.error e, st2) => (Except.error e, st2)) := rfl
  rw [hdef]
  show (match (rsp, { st with trace := st.trace ++ [c] }) with
    | (Except.ok a, st2) => f a st2
    | (Except.error e, st2) => (Except.error e, st2)) = _
  rw [h]
  rfl

/-- The unarchive-loop body issues only the unarchive call on the task
identifier (or nothing when the identifier is not truthy), and appends at
most one error message carrying the task title. -/
theorem unarchive_one_runs (client : Client) (t : Task) :
    ∃ τ g es, RunsTo (unarchive_one client t) τ g es
      ∧ (es = [] ∨ ∃ e, es = ["Failed to unarchive \x27" ++ t.title ++ "\x27: " ++ e])
      ∧ ∀ c ∈ τ, c = Call.unarchive_item (t.board_item_id.getD "") := by
  unfold unarchive_one
  by_cases hid : optTruthy t.board_item_id = true
  · cases hu : client.unarchive_item (t.board_item_id.getD "") with
    | ok u =>
        have hin : RunsWith (if optTruthy t.board_item_id then
            emitCall (Call.unarchive_item (t.board_item_id.getD "")) (Except.ok u : Except String Unit)
            >>= fun _ => modifyRes (fun res => { res with unarchived := res.unarchived + 1 })
          else pure ())
          (Except.ok ()) ([Call.unarchive_item (t.board_item_id.getD "")] ++ [])
          ((fun res => ({ res with unarchived := res.unarchived + 1 } : SyncResult)) ∘ id) := by
          rw [if_pos hid]
          exact RunsWith.bind_ok (RunsWith.emit _ _) (RunsWith.modify _)
        refine ⟨_, _, _, runs_attempt_pureHandler hin ⟨fun _ _ => rfl, fun _ => rfl⟩ _,
          Or.inl rfl, ?_⟩
        intro c hc
        rcases List.mem_append.mp hc with hc | hc
        · rw [List.mem_singleton] at hc
          exact hc
        · cases hc
    | error e =>
        have hin : RunsWith (if optTruthy t.board_item_id then
            emitCall (Call.unarchive_item (t.board_item_id.getD "")) (Except.error e : Except String Unit)
            >>= fun _ => modifyRes (fun res => { res with unarchived := res.unarchived + 1 })
          else pure ())
          (Except.error e) [Call.unarchive_item (t.board_item_id.getD "")] id := by
          rw [if_pos hid]
          exact RunsWith.bind_err (RunsWith.emit _ _)
        refine ⟨_, _, _, runs_attempt_pureHandler hin NonErrG.id _, Or.inr ⟨e, rfl⟩, ?_⟩
        intro c hc
        rw [List.mem_singleton] at hc
        exact hc
  · have hin : RunsWith (if optTruthy t.board_item_id then
        emitCall (Call.unarchive_item (t.board_item_id.getD ""))
          (client.unarchive_item (t.board_item_id.getD ""))
        >>= fun _ => modifyRes (fun res => { res with unarchived := res.unarchived + 1 })
      else pure ())
      (Except.ok ()) [] id := by
      rw [if_neg hid]
      exact RunsWith.pureR ()
    exact ⟨_, _, _, runs_attempt_pureHandler hin NonErrG.id _, Or.inl rfl,
      by intro c hc; cases hc⟩

/-- The archive-loop body issues only the archive call on the item
identifier, and appends at most one error message carrying the item title. -/
theorem archive_one_runs (client : Client) (bi : ProjectItem) :
    ∃ τ g es, RunsTo (archive_one client bi) τ g es
      ∧ (es = [] ∨ ∃ e, es = ["Failed to archive \x27" ++ bi.title ++ "\x27: " ++ e])
      ∧ ∀ c ∈ τ, c = Call.archive_item bi.item_id := by
  unfold archive_one
  cases ha : client.archive_item bi.item_id with
  | ok u =>
      have hin : RunsWith (emitCall (Call.archive_item bi.item_id) (Except.ok u : Except String Unit)
          >>= fun _ => modifyRes (fun res => { res with archived := res.archived + 1 }))
          (Except.ok ()) ([Call.archive_item bi.item_id] ++ [])
          ((fun res => ({ res with archived := res.archived + 1 } : SyncResult)) ∘ id) :=
        RunsWith.bind_ok (RunsWith.emit _ _) (RunsWith.modify _)
      refine ⟨_, _, _, runs_attempt_pureHandler hin ⟨fun _ _ => rfl, fun _ => rfl⟩ _,
        Or.inl rfl, ?_⟩
      intro c hc
      rcases List.mem_append.mp hc with hc | hc
      · rw [List.mem_singleton] at hc
        exact hc
      · cases hc
  | error e =>
      have hin : RunsWith (emitCall (Call.archive_item bi.item_id) (Except.error e : Except String Unit)
          >>= fun _ => modifyRes (fun res => { res with archived := res.archived + 1 }))
          (Except.error e) [Call.archive_item bi.item_id] id :=
        RunsWith.bind_err (RunsWith.emit _ _)
      refine ⟨_, _, _, runs_attempt_pureHandler hin NonErrG.id _, Or.inr ⟨e, rfl⟩, ?_⟩
      intro c hc
      rw [List.mem_singleton] at hc
      exact hc

/-- The create-loop body records at most one error message carrying the task
title, and every remote node its calls mutate is an identifier the client
handed out during this very step (the created Issue, Draft or board item). -/
theorem create_one_runs (client : Client) (ro rn : Option String)
    (fields : List (String × ProjectField)) (t : Task) :
    ∃ τ g es, RunsTo (create_one client ro rn fields t) τ g es
      ∧ (es = [] ∨ ∃ e, es = ["Failed to create \x27" ++ t.title ++ "\x27: " ++ e])
      ∧ ∀ c ∈ τ, ∀ s ∈ callItemIds c, ClientGenerated client s := by
  unfold create_one
  by_cases hscope : (optTruthy ro && optTruthy rn) = true
  · rw [if_pos hscope]
    cases hci : client.create_issue (ro.getD "") (rn.getD "") t.title t.description with
    | error e =>
        refine ⟨_, _, _, runs_attempt_createHandler (RunsWith.emit_bind_err rfl) NonErrG.id t,
          Or.inr ⟨e, rfl⟩, ?_⟩
        intro c hc s hs
        rw [List.mem_singleton] at hc
        subst hc
        cases hs
    | ok iid =>
        cases hadd : client.add_item_to_project iid with
        | error e =>
            refine ⟨_, _, _, runs_attempt_createHandler
              (RunsWith.emit_bind rfl (RunsWith.emit_bind_err hadd)) NonErrG.id t,
              Or.inr ⟨e, rfl⟩, ?_⟩
            intro c hc s hs
            rcases List.mem_cons.mp hc with hc | hc
            · subst hc
              cases hs
            · rw [List.mem_singleton] at hc
              subst hc
              cases hs
        | ok nid =>
            obtain ⟨ra, τa, hra, hpa⟩ := apply_task_fields_runs client nid t fields (some
              { item_id := nid, content_id := some iid, content_type := some "Issue",
                title := t.title, status := t.status, assignee := none, labels := [],
                due_date := none, description := t.description })
            have hpay : ∀ c ∈ τa, ∀ s ∈ callItemIds c, ClientGenerated client s := by
              intro c hc s hs
              rcases hpa c hc s hs with h | ⟨bi, hbi, hs2⟩
              · subst h
                exact Or.inr (Or.inr ⟨iid, hadd⟩)
              · cases hbi
                have hiid : iid = s := by injection hs2
                exact Or.inr (Or.inl ⟨ro.getD "", rn.getD "", t.title, t.description,
                  hiid ▸ hci⟩)
            cases ra with
            | ok u =>
                refine ⟨_, _, _, runs_attempt_createHandler
                  (RunsWith.emit_bind rfl (RunsWith.emit_bind hadd
                    (RunsWith.bind_ok hra (RunsWith.pureR nid))))
                  ?_ t, Or.inl rfl, ?_⟩
                · exact ⟨fun _ _ => rfl, fun _ => rfl⟩
                intro c hc s hs
                rcases List.mem_cons.mp hc with hc | hc
                · subst hc
                  cases hs
                rcases List.mem_cons.mp hc with hc | hc
                · subst hc
                  cases hs
                rcases List.mem_append.mp hc with hc | hc
                · exact hpay c hc s hs
                · cases hc
            | error e =>
                refine ⟨_, _, _, runs_attempt_createHandler
                  (RunsWith.emit_bind rfl (RunsWith.emit_bind hadd (RunsWith.bind_err hra)))
                  NonErrG.id t, Or.inr ⟨e, rfl⟩, ?_⟩
                intro c hc s hs
                rcases List.mem_cons.mp hc with hc | hc
                · subst hc
                  cases hs
                rcases List.mem_cons.mp hc with hc | hc
                · subst hc
                  cases hs
                exact hpay c hc s hs
  · rw [if_neg hscope]
    cases hdr : client.add_draft_issue t.title t.description with
    | error e =>
        refine ⟨_, _, _, runs_attempt_createHandler (RunsWith.emit_bind_err rfl) NonErrG.id t,
          Or.inr ⟨e, rfl⟩, ?_⟩
        intro c hc s hs
        rw [List.mem_singleton] at hc
        subst hc
        cases hs
    | ok did =>
        obtain ⟨ra, τa, hra, hpa⟩ := apply_task_fields_runs client did t fields none
        have hpay : ∀ c ∈ τa, ∀ s ∈ callItemIds c, ClientGenerated client s := by
          intro c hc s hs
          rcases hpa c hc s hs with h | ⟨bi, hbi, hs2⟩
          · subst h
            exact Or.inl ⟨t.title, t.description, hdr⟩
          · cases hbi
        cases ra with
        | ok u =>
            refine ⟨_, _, _, runs_attempt_createHandler
              (RunsWith.emit_bind rfl (RunsWith.bind_ok hra (RunsWith.pureR did)))
              ?_ t, Or.inl rfl, ?_⟩
            · exact ⟨fun _ _ => rfl, fun _ => rfl⟩
            intro c hc s hs
            rcases List.mem_cons.mp hc with hc | hc
            · subst hc
              cases hs
            rcases List.mem_append.mp hc with hc | hc
            · exact hpay c hc s hs
            · cases hc
        | error e =>
            refine ⟨_, _, _, runs_attempt_createHandler
              (RunsWith.emit_bind rfl (RunsWith.bind_err hra)) NonErrG.id t,
              Or.inr ⟨e, rfl⟩, ?_⟩
            intro c hc s hs
            rcases List.mem_cons.mp hc with hc | hc
            · subst hc
              cases hs
            exact hpay c hc s hs

/-- `RunsWith.bind_ok` with the continuation given explicitly, for use where
unification cannot infer it. -/
theorem RunsWith.bind_okF {x : Exec α} (f : α → Exec β) {a : α}
    {τ1 : List Call} {g1 : SyncResult → SyncResult} {r : Except String β}
    {τ2 : List Call} {g2 : SyncResult → SyncResult}
    (hx : RunsWith x (Except.ok a) τ1 g1) (hf : RunsWith (f a) r τ2 g2) :
    RunsWith (x >>= f) r (τ1 ++ τ2) (g2 ∘ g1) := RunsWith.bind_ok hx hf

/-- `RunsWith.emit_bind` with the call and continuation given explicitly. -/
theorem RunsWith.emit_bindF {α β : Type} (c : Call) {rsp : Except String α}
    (f : α → Exec β) {a : α} (h : rsp = Except.ok a) {r : Except String β}
    {τ2 : List Call} {g2 : SyncResult → SyncResult}
    (hf : RunsWith (f a) r τ2 g2) :
    RunsWith (emitCall c rsp >>= f) r (c :: τ2) g2 := RunsWith.emit_bind h hf

/-- The body-update step of the update loop issues calls only on the content
node of the board item it is given. -/
theorem update_body_runs (client : Client) (t : Task) (bd : ProjectItem) :
    ∃ τb, RunsWith
      (if optTruthy bd.content_id then
        attempt (
          if bd.content_type == some "DraftIssue" then
            emitCall (Call.update_draft_issue_body (bd.content_id.getD "")
                t.title t.description)
              (client.update_draft_issue_body (bd.content_id.getD "")
                t.title t.description)
          else if bd.content_type == some "Issue" then
            emitCall (Call.update_issue (bd.content_id.getD "")
                t.title t.description)
              (client.update_issue (bd.content_id.getD "")
                t.title t.description)
          else pure ())
        >>= fun _ => pure ()
      else pure ())
      (Except.ok ()) τb id
      ∧ ∀ c ∈ τb, ∀ s ∈ callItemIds c, bd.content_id = some s := by
  by_cases htr : optTruthy bd.content_id = true
  · rw [if_pos htr]
    have hcid : bd.content_id = some (bd.content_id.getD "") := by
      cases hc2 : bd.content_id with
      | none =>
          rw [hc2] at htr
          exact absurd htr (by decide)
      | some s => rfl
    have hinner : ∃ rsp τi, RunsWith
        (if bd.content_type == some "DraftIssue" then
          emitCall (Call.update_draft_issue_body (bd.content_id.getD "")
              t.title t.description)
            (client.update_draft_issue_body (bd.content_id.getD "")
              t.title t.description)
        else if bd.content_type == some "Issue" then
          emitCall (Call.update_issue (bd.content_id.getD "")
              t.title t.description)
            (client.update_issue (bd.content_id.getD "")
              t.title t.description)
        else pure ())
        rsp τi id
        ∧ ∀ c ∈ τi, ∀ s ∈ callItemIds c, bd.content_id = some s := by
      by_cases h1 : (bd.content_type == some "DraftIssue") = true
      · rw [if_pos h1]
        refine ⟨_, _, RunsWith.emit _ _, ?_⟩
        intro c hc s hs
        rw [List.mem_singleton] at hc
        subst hc
        rw [show callItemIds (Call.update_draft_issue_body (bd.content_id.getD "")
            t.title t.description) = [bd.content_id.getD ""] from rfl,
          List.mem_singleton] at hs
        subst hs
        exact hcid
      · rw [if_neg h1]
        by_cases h2 : (bd.content_type == some "Issue") = true
        · rw [if_pos h2]
          refine ⟨_, _, RunsWith.emit _ _, ?_⟩
          intro c hc s hs
          rw [List.mem_singleton] at hc
          subst hc
          rw [show callItemIds (Call.update_issue (bd.content_id.getD "")
              t.title t.description) = [bd.content_id.getD ""] from rfl,
            List.mem_singleton] at hs
          subst hs
          exact hcid
        · rw [if_neg h2]
          exact ⟨Except.ok (), [], RunsWith.pureR (), by intro c hc; cases hc⟩
    obtain ⟨rsp, τi, hi, hpi⟩ := hinner
    have hb := RunsWith.bind_okF (fun _ => (pure () : Exec Unit))
      (RunsWith.attemptR hi) (RunsWith.pureR ())
    refine ⟨τi ++ [], RunsWith.congr hb rfl (fun s => rfl), ?_⟩
    intro c hc s hs
    rcases List.mem_append.mp hc with hc | hc
    · exact hpi c hc s hs
    · cases hc
  · rw [if_neg htr]
    exact ⟨[], RunsWith.pureR (), by intro c hc; cases hc⟩

/-- The tail of the update loop for a fixed board item `bd`: field
application, best-effort body update, counter increment.  It never touches
the error list, the matched or created identifier maps, and every call it
issues mutates only `bd` or the content node of `bd`. -/
theorem update_suffix_runs (client : Client) (fields : List (String × ProjectField))
    (t : Task) (bd : ProjectItem) :
    ∃ r τ g, RunsWith
      (apply_task_fields client bd.item_id t fields (some bd)
       >>= fun _ =>
       (if optTruthy bd.content_id then
         attempt (
           if bd.content_type == some "DraftIssue" then
             emitCall (Call.update_draft_issue_body (bd.content_id.getD "")
                 t.title t.description)
               (client.update_draft_issue_body (bd.content_id.getD "")
                 t.title t.description)
           else if bd.content_type == some "Issue" then
             emitCall (Call.update_issue (bd.content_id.getD "")
                 t.title t.description)
               (client.update_issue (bd.content_id.getD "")
                 t.title t.description)
           else pure ())
         >>= fun _ => pure ()
       else pure ())
       >>= fun _ =>
       modifyRes (fun res => { res with updated := res.updated + 1 })) r τ g
      ∧ NonErrG g
      ∧ (∀ res, (g res).created_ids = res.created_ids)
      ∧ ∀ c ∈ τ, ∀ s ∈ callItemIds c, s = bd.item_id ∨ bd.content_id = some s := by
  obtain ⟨ra, τa, hra, hpa⟩ := apply_task_fields_runs client bd.item_id t fields (some bd)
  have hpa2 : ∀ c ∈ τa, ∀ s ∈ callItemIds c, s = bd.item_id ∨ bd.content_id = some s := by
    intro c hc s hs
    rcases hpa c hc s hs with h | ⟨bi, hbi, h2⟩
    · exact Or.inl h
    · injection hbi with hbi
      subst hbi
      exact Or.inr h2
  cases ra with
  | error e => exact ⟨_, _, _, RunsWith.bind_err hra, NonErrG.id, fun _ => rfl, hpa2⟩
  | ok u =>
      obtain ⟨τb, hbody, hpb⟩ := update_body_runs client t bd
      have hmod : RunsWith
          ((if optTruthy bd.content_id then
            attempt (
              if bd.content_type == some "DraftIssue" then
                emitCall (Call.update_draft_issue_body (bd.content_id.getD "")
                    t.title t.description)
                  (client.update_draft_issue_body (bd.content_id.getD "")
                    t.title t.description)
              else if bd.content_type == some "Issue" then
                emitCall (Call.update_issue (bd.content_id.getD "")
                    t.title t.description)
                  (client.update_issue (bd.content_id.getD "")
                    t.title t.description)
              else pure ())
            >>= fun _ => pure ()
          else pure ())
          >>= fun _ =>
          modifyRes (fun res => { res with updated := res.updated + 1 }))
          (Except.ok ()) (τb ++ [])
          ((fun res => ({ res with updated := res.updated + 1 } : SyncResult)) ∘ id) :=
        RunsWith.bind_ok hbody (RunsWith.modify _)
      refine ⟨_, _, _, RunsWith.bind_ok hra hmod,
        ⟨fun _ _ => rfl, fun _ => rfl⟩, fun _ => rfl, ?_⟩
      intro c hc s hs
      rcases List.mem_append.mp hc with hc | hc
      · exact hpa2 c hc s hs
      rcases List.mem_append.mp hc with hc | hc
      · exact Or.inr (hpb c hc s hs)
      · cases hc

/-- The update-loop body appends at most one error message carrying the task
title, and every remote node its calls mutate is either an identifier the
client handed out during this very step or the matched board item (or its
content node). -/
theorem update_one_runs (client : Client) (ro rn : Option String)
    (fields : List (String × ProjectField)) (pair : Task × ProjectItem) :
    ∃ τ g es, RunsTo (update_one client ro rn fields pair) τ g es
      ∧ (es = [] ∨ ∃ e, es = ["Failed to update \x27" ++ pair.1.title ++ "\x27: " ++ e])
      ∧ ∀ c ∈ τ, ∀ s ∈ callItemIds c,
          ClientGenerated client s ∨ s = pair.2.item_id ∨ pair.2.content_id = some s := by
  unfold update_one
  by_cases hconv : (optTruthy ro && optTruthy rn
      && pair.2.content_type == some "DraftIssue") = true
  · rw [if_pos hconv]
    cases hci : client.create_issue (ro.getD "") (rn.getD "")
        pair.1.title pair.1.description with
    | error e =>
        refine ⟨_, _, _, runs_attempt_pureHandler
          (RunsWith.bind_err (RunsWith.emit_bind_err rfl)) NonErrG.id _,
          Or.inr ⟨e, rfl⟩, ?_⟩
        intro c hc s hs
        rw [List.mem_singleton] at hc
        subst hc
        cases hs
    | ok iid =>
        cases hadd : client.add_item_to_project iid with
        | error e =>
            refine ⟨_, _, _, runs_attempt_pureHandler
              (RunsWith.bind_err (RunsWith.emit_bind rfl (RunsWith.emit_bind_err hadd)))
              NonErrG.id _, Or.inr ⟨e, rfl⟩, ?_⟩
            intro c hc s hs
            rcases List.mem_cons.mp hc with hc | hc
            · subst hc
              cases hs
            · rw [List.mem_singleton] at hc
              subst hc
              cases hs
        | ok nid =>
            obtain ⟨r, τ, g, hsuf, hgne, hgci, hps⟩ := update_suffix_runs client fields pair.1
              { item_id := nid, content_id := some iid,
                content_type := some "Issue", title := pair.1.title,
                status := pair.2.status, assignee := none, labels := [],
                due_date := none, description := pair.1.description }
            have harch : RunsWith
                (attempt (emitCall (Call.archive_item pair.2.item_id)
                  (client.archive_item pair.2.item_id)))
                (Except.ok (client.archive_item pair.2.item_id))
                [Call.archive_item pair.2.item_id] id :=
              RunsWith.attemptR (RunsWith.emit _ _)
            have hmod := RunsWith.bind_okF (fun _ =>
                pure
                  ({ item_id := nid, content_id := some iid,
                     content_type := some "Issue", title := pair.1.title,
                     status := pair.2.status, assignee := none, labels := [],
                     due_date := none, description := pair.1.description } : ProjectItem))
              (RunsWith.modify (fun res => { res with
                created_ids := dictSet res.created_ids pair.1.title nid }))
              (RunsWith.pureR _)
            have h3 := RunsWith.bind_okF (fun _ =>
                modifyRes (fun res => { res with
                  created_ids := dictSet res.created_ids pair.1.title nid })
                >>= fun _ =>
                pure
                  ({ item_id := nid, content_id := some iid,
                     content_type := some "Issue", title := pair.1.title,
                     status := pair.2.status, assignee := none, labels := [],
                     due_date := none, description := pair.1.description } : ProjectItem))
              harch hmod
            have hpre := RunsWith.emit_bindF
              (Call.create_issue (ro.getD "") (rn.getD "")
                pair.1.title pair.1.description)
              (fun issue_id =>
                emitCall (Call.add_item_to_project issue_id)
                  (client.add_item_to_project issue_id)
                >>= fun new_item_id =>
                attempt (emitCall (Call.archive_item pair.2.item_id)
                  (client.archive_item pair.2.item_id))
                >>= fun _ =>
                modifyRes (fun res => { res with
                  created_ids := dictSet res.created_ids pair.1.title new_item_id })
                >>= fun _ =>
                pure
                  ({ item_id := new_item_id, content_id := some issue_id,
                     content_type := some "Issue", title := pair.1.title,
                     status := pair.2.status, assignee := none, labels := [],
                     due_date := none, description := pair.1.description } : ProjectItem))
              rfl
              (RunsWith.emit_bindF (Call.add_item_to_project iid) (fun new_item_id =>
                attempt (emitCall (Call.archive_item pair.2.item_id)
                  (client.archive_item pair.2.item_id))
                >>= fun _ =>
                modifyRes (fun res => { res with
                  created_ids := dictSet res.created_ids pair.1.title new_item_id })
                >>= fun _ =>
                pure
                  ({ item_id := new_item_id, content_id := some iid,
                     content_type := some "Issue", title := pair.1.title,
                     status := pair.2.status, assignee := none, labels := [],
                     due_date := none, description := pair.1.description } : ProjectItem))
                hadd h3)
            have hin := RunsWith.bind_okF (fun board_item =>
                apply_task_fields client board_item.item_id pair.1 fields (some board_item)
                >>= fun _ =>
                (if optTruthy board_item.content_id then
                  attempt (
                    if board_item.content_type == some "DraftIssue" then
                      emitCall (Call.update_draft_issue_body (board_item.content_id.getD "")
                          pair.1.title pair.1.description)
                        (client.update_draft_issue_body (board_item.content_id.getD "")
                          pair.1.title pair.1.description)
                    else if board_item.content_type == some "Issue" then
                      emitCall (Call.update_issue (board_item.content_id.getD "")
                          pair.1.title pair.1.description)
                        (client.update_issue (board_item.content_id.getD "")
                          pair.1.title pair.1.description)
                    else pure ())
                  >>= fun _ => pure ()
                else pure ())
                >>= fun _ =>
                modifyRes (fun res => { res with updated := res.updated + 1 }))
              hpre hsuf
            have hpay : ∀ c ∈ (Call.create_issue (ro.getD "") (rn.getD "")
                  pair.1.title pair.1.description
                :: Call.add_item_to_project iid
                :: ([Call.archive_item pair.2.item_id] ++ ([] ++ []))) ++ τ,
                ∀ s ∈ callItemIds c,
                ClientGenerated client s ∨ s = pair.2.item_id
                  ∨ pair.2.content_id = some s := by
              intro c hc s hs
              rcases List.mem_append.mp hc with hc | hc
              · rcases List.mem_cons.mp hc with hc | hc
                · subst hc
                  cases hs
                rcases List.mem_cons.mp hc with hc | hc
                · subst hc
                  cases hs
                rcases List.mem_append.mp hc with hc | hc
                · rw [List.mem_singleton] at hc
                  subst hc
                  rw [show callItemIds (Call.archive_item pair.2.item_id)
                      = [pair.2.item_id] from rfl, List.mem_singleton] at hs
                  exact Or.inr (Or.inl hs)
                · cases hc
              · rcases hps c hc s hs with h | h
                · refine Or.inl (Or.inr (Or.inr ⟨iid, ?_⟩))
                  rw [h]
                  exact hadd
                · have h2 : some iid = some s := h
                  injection h2 with h2
                  exact Or.inl (Or.inr (Or.inl ⟨ro.getD "", rn.getD "",
                    pair.1.title, pair.1.description, h2 ▸ hci⟩))
            cases r with
            | ok u =>
                exact ⟨_, _, _, runs_attempt_pureHandler hin
                  (NonErrG.comp ⟨fun _ _ => rfl, fun _ => rfl⟩ hgne) _,
                  Or.inl rfl, hpay⟩
            | error e =>
                exact ⟨_, _, _, runs_attempt_pureHandler hin
                  (NonErrG.comp ⟨fun _ _ => rfl, fun _ => rfl⟩ hgne) _,
                  Or.inr ⟨e, rfl⟩, hpay⟩
  · rw [if_neg hconv]
    obtain ⟨r, τ, g, hsuf, hgne, hgci, hps⟩ := update_suffix_runs client fields pair.1 pair.2
    have hin := RunsWith.bind_okF (fun board_item =>
        apply_task_fields client board_item.item_id pair.1 fields (some board_item)
        >>= fun _ =>
        (if optTruthy board_item.content_id then
          attempt (
            if board_item.content_type == some "DraftIssue" then
              emitCall (Call.update_draft_issue_body (board_item.content_id.getD "")
                  pair.1.title pair.1.description)
                (client.update_draft_issue_body (board_item.content_id.getD "")
                  pair.1.title pair.1.description)
            else if board_item.content_type == some "Issue" then
              emitCall (Call.update_issue (board_item.content_id.getD "")
                  pair.1.title pair.1.description)
                (client.update_issue (board_item.content_id.getD "")
                  pair.1.title pair.1.description)
            else pure ())
          >>= fun _ => pure ()
        else pure ())
        >>= fun _ =>
        modifyRes (fun res => { res with updated := res.updated + 1 }))
      (RunsWith.pureR pair.2) hsuf
    have hpay : ∀ c ∈ ([] : List Call) ++ τ, ∀ s ∈ callItemIds c,
        ClientGenerated client s ∨ s = pair.2.item_id ∨ pair.2.content_id = some s := by
      intro c hc s hs
      rcases List.mem_append.mp hc with hc | hc
      · cases hc
      · rcases hps c hc s hs with h | h
        · exact Or.inr (Or.inl h)
        · exact Or.inr (Or.inr h)
    cases r with
    | ok u =>
        exact ⟨_, _, _, runs_attempt_pureHandler hin
          (NonErrG.comp NonErrG.id hgne) _, Or.inl rfl, hpay⟩
    | error e =>
        exact ⟨_, _, _, runs_attempt_pureHandler hin
          (NonErrG.comp NonErrG.id hgne) _, Or.inr ⟨e, rfl⟩, hpay⟩

/-- A bare result mutation as a per-item step. -/
theorem RunsTo.modifyR (g : SyncResult → SyncResult) (hg : NonErrG g) :
    RunsTo (modifyRes g) [] g [] := by
  refine ⟨hg, RunsWith.congr (RunsWith.modify g) rfl fun s => ?_⟩
  show g s = { g s with errors := s.errors ++ [] }
  rw [List.append_nil, ← hg.errors_eq s]

/-- A fold whose step never touches the error list leaves it unchanged. -/
theorem foldl_errors_eq {β : Type} (step : SyncResult → β → SyncResult)
    (hstep : ∀ r b, (step r b).errors = r.errors) (l : List β) :
    ∀ r : SyncResult, (l.foldl step r).errors = r.errors := by
  induction l with
  | nil => intro r; rfl
  | cons b bs ih => intro r; rw [List.foldl_cons, ih, hstep]

/-- Recording matched identifiers never touches the error list. -/
theorem record_matched_ids_errors (plan : SyncPlan) (r : SyncResult) :
    (record_matched_ids plan r).errors = r.errors := by
  unfold record_matched_ids
  refine Eq.trans (foldl_errors_eq _ ?_ _ _)
    (Eq.trans (foldl_errors_eq _ ?_ _ _) (foldl_errors_eq _ ?_ _ _))
  all_goals intro r2 b
  all_goals dsimp only
  all_goals split <;> rfl

/-- Composition of per-item steps over a whole bucket: the loop runs every
item, concatenates the traces, and appends one per-item error list each. -/
theorem runs_forM {α : Type} (f : α → Exec Unit) (p : α → Call → Prop)
    (q : α → List String → Prop) (l : List α)
    (h : ∀ a ∈ l, ∃ τ g es, RunsTo (f a) τ g es ∧ (∀ c ∈ τ, p a c) ∧ q a es) :
    ∃ τ g es, RunsTo (List.forM l f) τ g es ∧ (∀ c ∈ τ, ∃ a ∈ l, p a c)
      ∧ ∃ ess : List (List String), es = ess.flatten ∧ List.Forall₂ q l ess := by
  induction l with
  | nil =>
      refine ⟨[], id, [], RunsTo.pure0, ?_, [], rfl, List.Forall₂.nil⟩
      intro c hc
      cases hc
  | cons a as ih =>
      obtain ⟨τ1, g1, es1, h1, hp1, hq1⟩ := h a (List.mem_cons_self _ _)
      obtain ⟨τ2, g2, es2, h2, hp2, ess, hess, hfa⟩ :=
        ih (fun b hb => h b (List.mem_cons_of_mem a hb))
      refine ⟨τ1 ++ τ2, g2 ∘ g1, es1 ++ es2, RunsTo.seq h1 h2, ?_,
        es1 :: ess, ?_, List.Forall₂.cons hq1 hfa⟩
      · intro c hc
        rcases List.mem_append.mp hc with hc | hc
        · exact ⟨a, List.mem_cons_self _ _, hp1 c hc⟩
        · obtain ⟨b, hb, hpb⟩ := hp2 c hc
          exact ⟨b, List.mem_cons_of_mem a hb, hpb⟩
      · rw [List.flatten_cons, hess]

/-- Evaluate a characterized executor computation at the initial state, as
`execute_sync` does. -/
theorem exec_extract {x : Exec Unit} {r : Except String Unit} {τ : List Call}
    {G : SyncResult → SyncResult} (h : RunsWith x r τ G) :
    (((x {}).2.res, (x {}).2.trace) : SyncResult × List Call) = (G {}, τ) := by
  rw [h {}]
  rfl

/-- Decomposition of a non-dry run of `execute_sync`: after the listing and
the field fetch, the four mutation phases run in order over the buckets of
the converted plan; each phase call belongs to one bucket item, and the error
list is the in-order concatenation of per-item error lists, one per bucket
item, each empty or a single message naming the failed item. -/
theorem execute_sync_nondry (client : Client) (tasks : List Task)
    (repo_label ro rn : Option String) (plan : SyncPlan)
    (hplan : convert_unchanged_drafts
        (build_sync_plan tasks client.list_items ro rn repo_label)
        client.list_items ro rn = plan) :
    ∃ τ1 τ2 τ3 τ4 ess1 ess2 ess3 ess4,
      (execute_sync client tasks repo_label ro rn false).2
        = Call.list_items :: Call.get_fields :: (τ1 ++ (τ2 ++ (τ3 ++ (τ4 ++ []))))
      ∧ (execute_sync client tasks repo_label ro rn false).1.errors
        = List.flatten ess1 ++ (List.flatten ess2 ++ (List.flatten ess3
            ++ (List.flatten ess4 ++ [])))
      ∧ (∀ c ∈ τ1, ∃ t ∈ plan.unarchive,
          c = Call.unarchive_item (t.board_item_id.getD ""))
      ∧ (∀ c ∈ τ2, ∃ t ∈ plan.create, ∀ s ∈ callItemIds c, ClientGenerated client s)
      ∧ (∀ c ∈ τ3, ∃ pr ∈ plan.update, ∀ s ∈ callItemIds c,
          ClientGenerated client s ∨ s = pr.2.item_id ∨ pr.2.content_id = some s)
      ∧ (∀ c ∈ τ4, ∃ bi ∈ plan.archive, c = Call.archive_item bi.item_id)
      ∧ List.Forall₂ (fun (t : Task) es => es = [] ∨ ∃ e,
          es = ["Failed to unarchive \x27" ++ t.title ++ "\x27: " ++ e]) plan.unarchive ess1
      ∧ List.Forall₂ (fun (t : Task) es => es = [] ∨ ∃ e,
          es = ["Failed to create \x27" ++ t.title ++ "\x27: " ++ e]) plan.create ess2
      ∧ List.Forall₂ (fun (pr : Task × ProjectItem) es => es = [] ∨ ∃ e,
          es = ["Failed to update \x27" ++ pr.1.title ++ "\x27: " ++ e]) plan.update ess3
      ∧ List.Forall₂ (fun (bi : ProjectItem) es => es = [] ∨ ∃ e,
          es = ["Failed to archive \x27" ++ bi.title ++ "\x27: " ++ e]) plan.archive ess4 := by
  subst hplan
  obtain ⟨τ1, g1, es1, hr1, hp1, ess1, hess1, hfa1⟩ :=
    runs_forM (unarchive_one client)
      (fun t c => c = Call.unarchive_item (t.board_item_id.getD ""))
      (fun t es => es = []
        ∨ ∃ e, es = ["Failed to unarchive \x27" ++ t.title ++ "\x27: " ++ e])
      (convert_unchanged_drafts
        (build_sync_plan tasks client.list_items ro rn repo_label)
        client.list_items ro rn).unarchive
      (fun t _ => by
        obtain ⟨τ, g, es, h, hes, hc⟩ := unarchive_one_runs client t
        exact ⟨τ, g, es, h, hc, hes⟩)
  obtain ⟨τ2, g2, es2, hr2, hp2, ess2, hess2, hfa2⟩ :=
    runs_forM (create_one client ro rn client.get_fields)
      (fun t c => ∀ s ∈ callItemIds c, ClientGenerated client s)
      (fun t es => es = []
        ∨ ∃ e, es = ["Failed to create \x27" ++ t.title ++ "\x27: " ++ e])
      (convert_unchanged_drafts
        (build_sync_plan tasks client.list_items ro rn repo_label)
        client.list_items ro rn).create
      (fun t _ => by
        obtain ⟨τ, g, es, h, hes, hc⟩ := create_one_runs client ro rn client.get_fields t
        exact ⟨τ, g, es, h, hc, hes⟩)
  obtain ⟨τ3, g3, es3, hr3, hp3, ess3, hess3, hfa3⟩ :=
    runs_forM (update_one client ro rn client.get_fields)
      (fun pr c => ∀ s ∈ callItemIds c,
        ClientGenerated client s ∨ s = pr.2.item_id ∨ pr.2.content_id = some s)
      (fun pr es => es = []
        ∨ ∃ e, es = ["Failed to update \x27" ++ pr.1.title ++ "\x27: " ++ e])
      (convert_unchanged_drafts
        (build_sync_plan tasks client.list_items ro rn repo_label)
        client.list_items ro rn).update
      (fun pr _ => by
        obtain ⟨τ, g, es, h, hes, hc⟩ := update_one_runs client ro rn client.get_fields pr
        exact ⟨τ, g, es, h, hc, hes⟩)
  obtain ⟨τ4, g4, es4, hr4, hp4, ess4, hess4, hfa4⟩ :=
    runs_forM (archive_one client)
      (fun bi c => c = Call.archive_item bi.item_id)
      (fun bi es => es = []
        ∨ ∃ e, es = ["Failed to archive \x27" ++ bi.title ++ "\x27: " ++ e])
      (convert_unchanged_drafts
        (build_sync_plan tasks client.list_items ro rn repo_label)
        client.list_items ro rn).archive
      (fun bi _ => by
        obtain ⟨τ, g, es, h, hes, hc⟩ := archive_one_runs client bi
        exact ⟨τ, g, es, h, hc, hes⟩)
  have htail := RunsTo.seq hr1 (RunsTo.seq hr2 (RunsTo.seq hr3 (RunsTo.seq hr4
    (RunsTo.modifyR (fun res => { res with unchanged :=
        (convert_unchanged_drafts
          (build_sync_plan tasks client.list_items ro rn repo_label)
          client.list_items ro rn).unchanged.length })
      ⟨fun _ _ => rfl, fun _ => rfl⟩))))
  have hrun : RunsWith
      (emitCall Call.list_items (Except.ok client.list_items) >>= fun board_items =>
       modifyRes (record_matched_ids (convert_unchanged_drafts
         (build_sync_plan tasks board_items ro rn repo_label) board_items ro rn))
       >>= fun _ =>
       emitCall Call.get_fields (Except.ok client.get_fields) >>= fun fields =>
       List.forM (convert_unchanged_drafts
         (build_sync_plan tasks board_items ro rn repo_label) board_items ro rn).unarchive
         (unarchive_one client)
       >>= fun _ =>
       List.forM (convert_unchanged_drafts
         (build_sync_plan tasks board_items ro rn repo_label) board_items ro rn).create
         (create_one client ro rn fields)
       >>= fun _ =>
       List.forM (convert_unchanged_drafts
         (build_sync_plan tasks board_items ro rn repo_label) board_items ro rn).update
         (update_one client ro rn fields)
       >>= fun _ =>
       List.forM (convert_unchanged_drafts
         (build_sync_plan tasks board_items ro rn repo_label) board_items ro rn).archive
         (archive_one client)
       >>= fun _ =>
       modifyRes (fun res => { res with unchanged :=
         (convert_unchanged_drafts
           (build_sync_plan tasks board_items ro rn repo_label)
           board_items ro rn).unchanged.length }))
      (Except.ok ())
      (Call.list_items :: ([] ++ (Call.get_fields ::
        (τ1 ++ (τ2 ++ (τ3 ++ (τ4 ++ [])))))))
      ((fun r => { (((((fun res => { res with unchanged :=
            (convert_unchanged_drafts
              (build_sync_plan tasks client.list_items ro rn repo_label)
              client.list_items ro rn).unchanged.length }) ∘ g4) ∘ g3) ∘ g2) ∘ g1) r with
          errors := r.errors ++ (es1 ++ (es2 ++ (es3 ++ (es4 ++ [])))) })
        ∘ record_matched_ids (convert_unchanged_drafts
            (build_sync_plan tasks client.list_items ro rn repo_label)
            client.list_items ro rn)) := by
    refine RunsWith.emit_bind rfl ?_
    refine RunsWith.bind_ok (RunsWith.modify _) ?_
    refine RunsWith.emit_bind rfl ?_
    exact htail.2
  have hx : execute_sync client tasks repo_label ro rn false
      = (((fun r => { (((((fun res => { res with unchanged :=
            (convert_unchanged_drafts
              (build_sync_plan tasks client.list_items ro rn repo_label)
              client.list_items ro rn).unchanged.length }) ∘ g4) ∘ g3) ∘ g2) ∘ g1) r with
          errors := r.errors ++ (es1 ++ (es2 ++ (es3 ++ (es4 ++ [])))) })
        ∘ record_matched_ids (convert_unchanged_drafts
            (build_sync_plan tasks client.list_items ro rn repo_label)
            client.list_items ro rn)) ({} : SyncResult),
        Call.list_items :: ([] ++ (Call.get_fields ::
          (τ1 ++ (τ2 ++ (τ3 ++ (τ4 ++ []))))))) := exec_extract hrun
  refine ⟨τ1, τ2, τ3, τ4, ess1, ess2, ess3, ess4, ?_, ?_, hp1, hp2, hp3, hp4,
    hfa1, hfa2, hfa3, hfa4⟩
  · rw [hx]
    rfl
  · rw [hx]
    show (record_matched_ids (convert_unchanged_drafts
        (build_sync_plan tasks client.list_items ro rn repo_label)
        client.list_items ro rn) ({} : SyncResult)).errors
      ++ (es1 ++ (es2 ++ (es3 ++ (es4 ++ [])))) = _
    rw [record_matched_ids_errors, hess1, hess2, hess3, hess4]
    rfl

/-- A successful id lookup returns a member of the item list. -/
theorem mem_of_boardById (board_items : List ProjectItem) (id : String) (bi : ProjectItem)
    (h : boardById board_items id = some bi) : bi ∈ board_items := by
  have H : ∀ (l : List ProjectItem) (acc : Option ProjectItem),
      l.foldl (fun acc bi => if bi.item_id == id then some bi else acc) acc = some bi →
      bi ∈ l ∨ acc = some bi := by
    intro l
    induction l with
    | nil => intro acc h0; exact Or.inr h0
    | cons hd tl ih =>
        intro acc h0
        rw [List.foldl_cons] at h0
        rcases ih _ h0 with h1 | h1
        · exact Or.inl (List.mem_cons_of_mem _ h1)
        · split at h1
          · injection h1 with h2
            subst h2
            exact Or.inl (List.mem_cons_self _ _)
          · exact Or.inr h1
  unfold boardById at h
  rcases H board_items none h with h1 | h1
  · exact h1
  · cases h1

/-- A failed id lookup means no member carries the id. -/
theorem boardById_none_not_mem (board_items : List ProjectItem) (id : String)
    (h : boardById board_items id = none) :
    ∀ bi ∈ board_items, bi.item_id ≠ id := by
  have H : ∀ (l : List ProjectItem) (acc : Option ProjectItem),
      l.foldl (fun acc bi => if bi.item_id == id then some bi else acc) acc = none →
      (∀ bi ∈ l, bi.item_id ≠ id) ∧ acc = none := by
    intro l
    induction l with
    | nil =>
        intro acc h0
        refine ⟨?_, h0⟩
        intro bi hbi
        cases hbi
    | cons hd tl ih =>
        intro acc h0
        rw [List.foldl_cons] at h0
        obtain ⟨h1, h2⟩ := ih _ h0
        split at h2
        next hcond => cases h2
        next hcond =>
          refine ⟨?_, h2⟩
          intro bi hbi
          rcases List.mem_cons.mp hbi with hbi | hbi
          · subst hbi
            intro hcon
            exact hcond (beq_iff_eq.mpr hcon)
          · exact h1 bi hbi
  unfold boardById at h
  exact (H board_items none h).1

/-- A successful title lookup returns a member of the item list. -/
theorem boardByTitle_mem (board_items : List ProjectItem) (title : String)
    (bi : ProjectItem) (h : boardByTitle board_items title = some bi) :
    bi ∈ board_items := List.mem_of_find?_eq_some h

/-- A successful title fallback returns a member of the item list. -/
theorem title_fallback_match_mem (task : Task) (board_items : List ProjectItem)
    (seen : List String) (bi : ProjectItem)
    (h : title_fallback_match task board_items seen = some bi) : bi ∈ board_items := by
  unfold title_fallback_match at h
  cases hb : boardByTitle board_items task.title with
  | none =>
      rw [hb] at h
      cases h
  | some m =>
      rw [hb] at h
      dsimp only at h
      by_cases hseen : seen.contains m.item_id = true
      · rw [if_pos hseen] at h
        cases h
      · rw [if_neg hseen] at h
        injection h with h2
        subst h2
        exact boardByTitle_mem _ _ _ hb

/-- Source invariant of the plan-building loop state: every unarchive-bucket
task carries a truthy identifier that no observed item bears, and every
update pair holds an observed item. -/
def PlanSrc (board_items : List ProjectItem) (p : SyncPlan) : Prop :=
  (∀ t ∈ p.unarchive, optTruthy t.board_item_id = true
    ∧ boardById board_items (t.board_item_id.getD "") = none)
  ∧ (∀ pr ∈ p.update, pr.2 ∈ board_items)

theorem fallbackClaim_src (board_items : List ProjectItem) (p : SyncPlan)
    (t : Task) (matched : ProjectItem) (hp : PlanSrc board_items p)
    (hm : matched ∈ board_items) : PlanSrc board_items (fallbackClaim p t matched) := by
  unfold fallbackClaim
  dsimp only
  split
  · refine ⟨fun t2 ht2 => hp.1 t2 ht2, ?_⟩
    intro pr hpr
    rcases List.mem_append.mp hpr with hpr | hpr
    · exact hp.2 pr hpr
    · rw [List.mem_singleton] at hpr
      subst hpr
      exact hm
  · exact ⟨fun t2 ht2 => hp.1 t2 ht2, fun pr hpr => hp.2 pr hpr⟩

theorem planStep_src (board_items : List ProjectItem) (p : SyncPlan) (task : Task)
    (hp : PlanSrc board_items p) : PlanSrc board_items (planStep board_items p task) := by
  unfold planStep
  dsimp only
  by_cases htr : optTruthy task.board_item_id = true
  · rw [if_pos htr]
    cases hb : boardById board_items (task.board_item_id.getD "") with
    | some board_item =>
        dsimp only
        split
        · refine ⟨fun t2 ht2 => hp.1 t2 ht2, ?_⟩
          intro pr hpr
          rcases List.mem_append.mp hpr with hpr | hpr
          · exact hp.2 pr hpr
          · rw [List.mem_singleton] at hpr
            subst hpr
            exact mem_of_boardById _ _ _ hb
        · exact ⟨fun t2 ht2 => hp.1 t2 ht2, fun pr hpr => hp.2 pr hpr⟩
    | none =>
        cases hf : title_fallback_match task board_items p.seen_board_ids with
        | some matched =>
            exact fallbackClaim_src _ _ _ _ hp (title_fallback_match_mem _ _ _ _ hf)
        | none =>
            refine ⟨?_, fun pr hpr => hp.2 pr hpr⟩
            intro t2 ht2
            rcases List.mem_append.mp ht2 with ht2 | ht2
            · exact hp.1 t2 ht2
            · rw [List.mem_singleton] at ht2
              subst ht2
              exact ⟨htr, hb⟩
  · rw [if_neg htr]
    cases hf : title_fallback_match task board_items p.seen_board_ids with
    | some matched =>
        exact fallbackClaim_src _ _ _ _ hp (title_fallback_match_mem _ _ _ _ hf)
    | none => exact ⟨fun t2 ht2 => hp.1 t2 ht2, fun pr hpr => hp.2 pr hpr⟩

theorem foldl_planStep_src (board_items : List ProjectItem) (l : List Task) :
    ∀ p : SyncPlan, PlanSrc board_items p →
    PlanSrc board_items (l.foldl (planStep board_items) p) := by
  induction l with
  | nil => intro p hp; exact hp
  | cons hd tl ih =>
      intro p hp
      rw [List.foldl_cons]
      exact ih _ (planStep_src _ _ _ hp)

/-- The built plan satisfies the source invariant, and its archive bucket
holds only observed items. -/
theorem build_sync_plan_src (tasks : List Task) (board_items : List ProjectItem)
    (ro rn rl : Option String) :
    PlanSrc board_items (build_sync_plan tasks board_items ro rn rl)
    ∧ ∀ bi ∈ (build_sync_plan tasks board_items ro rn rl).archive, bi ∈ board_items := by
  constructor
  · refine foldl_planStep_src board_items tasks {} ⟨?_, ?_⟩
    · intro t ht
      cases ht
    · intro pr hpr
      cases hpr
  · intro bi hbi
    exact List.mem_of_mem_filter hbi

theorem convert_unchanged_drafts_unarchive (plan : SyncPlan)
    (board_items : List ProjectItem) (ro rn : Option String) :
    (convert_unchanged_drafts plan board_items ro rn).unarchive = plan.unarchive := by
  unfold convert_unchanged_drafts
  split <;> rfl

theorem convert_unchanged_drafts_archive (plan : SyncPlan)
    (board_items : List ProjectItem) (ro rn : Option String) :
    (convert_unchanged_drafts plan board_items ro rn).archive = plan.archive := by
  unfold convert_unchanged_drafts
  split <;> rfl

/-- The Draft-conversion fold only grows its pair component. -/
theorem convertFold_mono (board_items : List ProjectItem) (pr : Task × ProjectItem)
    (l : List Task) :
    ∀ acc : List (Task × ProjectItem) × List Task, pr ∈ acc.1 →
    pr ∈ (l.foldl (fun (acc : List (Task × ProjectItem) × List Task) task =>
      match boardById board_items (task.board_item_id.getD "") with
      | some bi =>
          if bi.content_type == some "DraftIssue" then (acc.1 ++ [(task, bi)], acc.2)
          else (acc.1, acc.2 ++ [task])
      | none => (acc.1, acc.2 ++ [task])) acc).1 := by
  induction l with
  | nil => intro acc h0; exact h0
  | cons hd tl ih =>
      intro acc h0
      rw [List.foldl_cons]
      refine ih _ ?_
      cases hb : boardById board_items (hd.board_item_id.getD "") with
      | some bi =>
          dsimp only
          by_cases hdft : (bi.content_type == some "DraftIssue") = true
          · rw [if_pos hdft]
            exact List.mem_append_left _ h0
          · rw [if_neg hdft]
            exact h0
      | none => exact h0

/-- Any pair the Draft-conversion fold produces is either an original update
pair or a Draft pair looked up by identifier. -/
theorem convertFold_src (board_items : List ProjectItem) (pr : Task × ProjectItem)
    (l : List Task) :
    ∀ acc : List (Task × ProjectItem) × List Task,
    pr ∈ (l.foldl (fun (acc : List (Task × ProjectItem) × List Task) task =>
      match boardById board_items (task.board_item_id.getD "") with
      | some bi =>
          if bi.content_type == some "DraftIssue" then (acc.1 ++ [(task, bi)], acc.2)
          else (acc.1, acc.2 ++ [task])
      | none => (acc.1, acc.2 ++ [task])) acc).1 →
    pr ∈ acc.1 ∨ ∃ t bi, boardById board_items (t.board_item_id.getD "") = some bi
      ∧ pr = (t, bi) := by
  induction l with
  | nil => intro acc h0; exact Or.inl h0
  | cons hd tl ih =>
      intro acc h0
      rw [List.foldl_cons] at h0
      rcases ih _ h0 with h1 | h1
      · cases hb : boardById board_items (hd.board_item_id.getD "") with
        | some bi =>
            rw [hb] at h1
            dsimp only at h1
            by_cases hdft : (bi.content_type == some "DraftIssue") = true
            · rw [if_pos hdft] at h1
              rcases List.mem_append.mp h1 with h2 | h2
              · exact Or.inl h2
              · rw [List.mem_singleton] at h2
                exact Or.inr ⟨hd, bi, hb, h2⟩
            · rw [if_neg hdft] at h1
              exact Or.inl h1
        | none =>
            rw [hb] at h1
            exact Or.inl h1
      · exact Or.inr h1

/-- Every pair of the converted update bucket is an original update pair or a
Draft pair looked up by identifier; in particular it holds an observed item. -/
theorem convert_update_mem (plan : SyncPlan) (board_items : List ProjectItem)
    (ro rn : Option String) (pr : Task × ProjectItem)
    (h : pr ∈ (convert_unchanged_drafts plan board_items ro rn).update) :
    pr ∈ plan.update
      ∨ ∃ t bi, boardById board_items (t.board_item_id.getD "") = some bi
          ∧ pr = (t, bi) := by
  unfold convert_unchanged_drafts at h
  split at h
  · exact convertFold_src board_items pr plan.unchanged (plan.update, []) h
  · exact Or.inl h

/-- The converted update bucket contains every original update pair. -/
theorem convert_update_mono (plan : SyncPlan) (board_items : List ProjectItem)
    (ro rn : Option String) (pr : Task × ProjectItem) (h : pr ∈ plan.update) :
    pr ∈ (convert_unchanged_drafts plan board_items ro rn).update := by
  unfold convert_unchanged_drafts
  split
  · exact convertFold_mono board_items pr plan.unchanged (plan.update, []) h
  · exact h

/-- With a truthy repository scope, an unchanged task whose board item is a
Draft is moved into the update bucket, paired with that item. -/
theorem convert_moves_draft (plan : SyncPlan) (board_items : List ProjectItem)
    (ro rn : Option String) (t : Task) (bi : ProjectItem)
    (hsc : (optTruthy ro && optTruthy rn) = true)
    (ht : t ∈ plan.unchanged)
    (hb : boardById board_items (t.board_item_id.getD "") = some bi)
    (hd : bi.content_type = some "DraftIssue") :
    (t, bi) ∈ (convert_unchanged_drafts plan board_items ro rn).update := by
  unfold convert_unchanged_drafts
  rw [if_pos hsc]
  have H : ∀ (l : List Task) (acc : List (Task × ProjectItem) × List Task), t ∈ l →
      (t, bi) ∈ (l.foldl (fun (acc : List (Task × ProjectItem) × List Task) task =>
        match boardById board_items (task.board_item_id.getD "") with
        | some bi =>
            if bi.content_type == some "DraftIssue" then (acc.1 ++ [(task, bi)], acc.2)
            else (acc.1, acc.2 ++ [task])
        | none => (acc.1, acc.2 ++ [task])) acc).1 := by
    intro l
    induction l with
    | nil => intro acc h0; cases h0
    | cons hd2 tl ih =>
        intro acc h0
        rw [List.foldl_cons]
        rcases List.mem_cons.mp h0 with h0 | h0
        · subst h0
          refine convertFold_mono board_items (t, bi) tl _ ?_
          dsimp only
          rw [hb]
          dsimp only
          split
          next hc => exact List.mem_append_right _ (List.mem_singleton.mpr rfl)
          next hc => exact absurd (by rw [hd]; rfl) hc
        · exact ih _ h0
  exact H plan.unchanged (plan.update, []) ht

/-- The latest dict assignment wins on lookup. -/
theorem dictGet_dictSet (m : List (String × String)) (k v : String) :
    dictGet (dictSet m k v) k = some v := by
  unfold dictGet dictSet
  rw [List.foldl_append, List.foldl_cons, List.foldl_nil]
  simp

/-! ## Claim C3 -/

/-- C3: execution of the unarchive bucket at the input of the source test
`test_unarchive_reopens_issue` (an archived board item backing an Issue, an
empty active board).  The run issues exactly the listing, the field fetch and
the unarchive mutation: no `reopen_issue` call appears in the trace, although
the source tests `test_unarchive_reopens_issue` and
`test_unarchive_reopen_failure_does_not_crash` require the executor to
attempt a reopen for Issue content and to log its failure without recording
an error.  The claim describes intended behaviour that `execute_sync` does
not implement (the client class has no reopen operation at all), so the code,
not the claim, is wrong. -/
theorem claim_C3 :
    (execute_sync stubClient
      [{ title := "Revived task", status := "Todo", board_item_id := some "PVTI_archived" }]
      none none none false).2
      = [Call.list_items, Call.get_fields, Call.unarchive_item "PVTI_archived"]
    ∧ (execute_sync stubClient
      [{ title := "Revived task", status := "Todo", board_item_id := some "PVTI_archived" }]
      none none none false).1.unarchived = 1
    ∧ (execute_sync stubClient
      [{ title := "Revived task", status := "Todo", board_item_id := some "PVTI_archived" }]
      none none none false).1.errors = []
    ∧ ((execute_sync stubClient
      [{ title := "Revived task", status := "Todo", board_item_id := some "PVTI_archived" }]
      none none none false).2.all (fun c => match c with
        | Call.reopen_issue _ => false
        | _ => true)) = true := by decide

/-! ## Claim C9 -/

/-- C9: execution of an update pair at the input of the source test
`test_update_issue_labels` (Issue item "PVTI_1" owned by repository
"tasksmd-sync", task labels differing).  The label resolution call carries
`(client.org, "")` — owner "harmoniqs" and the **empty string** as repository
name — not the owning repository of the matched Issue, although the test
asserts `resolve_label_ids("harmoniqs", "tasksmd-sync", ...)`; the claim is
right and the call site `_apply_task_fields` is wrong.  Unresolvable names
being dropped without an error is visible in `resolve_label_ids` returning a
filtered list and the caller merely skipping when it is empty. -/
theorem claim_C9 :
    (execute_sync { stubClient with list_items :=
        [{ item_id := "PVTI_1", title := "Task", status := "Todo",
           content_type := some "Issue", content_id := some "I_1",
           labels := [], repo_name := some "tasksmd-sync" }] }
      [{ title := "Task", status := "Todo", board_item_id := some "PVTI_1",
         labels := ["bug", "docs"] }]
      none none none false).2
    = [Call.list_items, Call.get_fields,
       Call.update_item_field_single_select "PVTI_1" "F_status" "OPT_todo",
       Call.resolve_label_ids "harmoniqs" "" ["bug", "docs"],
       Call.set_issue_labels "I_1" ["LA_bug", "LA_docs"],
       Call.update_issue "I_1" "Task" ""]
    ∧ stubClient.org = "harmoniqs"
    ∧ (execute_sync { stubClient with list_items :=
        [{ item_id := "PVTI_1", title := "Task", status := "Todo",
           content_type := some "Issue", content_id := some "I_1",
           labels := [], repo_name := some "tasksmd-sync" }] }
      [{ title := "Task", status := "Todo", board_item_id := some "PVTI_1",
         labels := ["bug", "docs"] }]
      none none none false).1.errors = [] := by decide

/-! ## Claim C6 -/

theorem RunsTo.congrTau {f : Exec Unit} {τ1 τ2 : List Call}
    {g : SyncResult → SyncResult} {es : List String}
    (h : RunsTo f τ1 g es) (ht : τ1 = τ2) : RunsTo f τ2 g es := ht ▸ h

/-- C6: with a truthy repository scope, the update bucket of the executed
plan keeps every built update pair and additionally receives every unchanged
task whose board item is a Draft, paired with that item (routing even with
zero field diffs); and executing any Draft pair converts it: the trace opens
with the Issue creation carrying the task title and description, the board
attachment and the archiving of the old Draft item, every further call
mutates only the new board item or the new Issue, the new item identifier is
recorded in the created-identifier map under the task title, and the
matched-identifier map is never touched. -/
theorem claim_C6 (client : Client) (tasks : List Task)
    (repo_label ro rn : Option String) (fields : List (String × ProjectField))
    (t : Task) (bi : ProjectItem) (pair : Task × ProjectItem) (iid nid : String)
    (hro : optTruthy ro = true) (hrn : optTruthy rn = true)
    (hmem : t ∈ (build_sync_plan tasks client.list_items ro rn repo_label).unchanged)
    (hbi : boardById client.list_items (t.board_item_id.getD "") = some bi)
    (hdraft : bi.content_type = some "DraftIssue")
    (hpd : pair.2.content_type = some "DraftIssue")
    (hci : client.create_issue (ro.getD "") (rn.getD "") pair.1.title pair.1.description
      = Except.ok iid)
    (hadd : client.add_item_to_project iid = Except.ok nid) :
    (∀ pr ∈ (build_sync_plan tasks client.list_items ro rn repo_label).update,
      pr ∈ (convert_unchanged_drafts
        (build_sync_plan tasks client.list_items ro rn repo_label)
        client.list_items ro rn).update)
    ∧ (t, bi) ∈ (convert_unchanged_drafts
        (build_sync_plan tasks client.list_items ro rn repo_label)
        client.list_items ro rn).update
    ∧ ∃ τs g es, RunsTo (update_one client ro rn fields pair)
        (Call.create_issue (ro.getD "") (rn.getD "") pair.1.title pair.1.description
          :: Call.add_item_to_project iid
          :: Call.archive_item pair.2.item_id :: τs) g es
      ∧ (∀ c ∈ τs, ∀ s ∈ callItemIds c, s = nid ∨ s = iid)
      ∧ (∀ r, dictGet (g r).created_ids pair.1.title = some nid)
      ∧ (∀ r, (g r).matched_ids = r.matched_ids) := by
  have hsc : (optTruthy ro && optTruthy rn) = true := by
    rw [hro, hrn]
    rfl
  refine ⟨fun pr hpr => convert_update_mono _ _ _ _ pr hpr,
    convert_moves_draft _ _ _ _ _ _ hsc hmem hbi hdraft, ?_⟩
  have hconv : (optTruthy ro && optTruthy rn
      && pair.2.content_type == some "DraftIssue") = true := by
    rw [hro, hrn, hpd]
    rfl
  unfold update_one
  rw [if_pos hconv]
  obtain ⟨r, τ, g, hsuf, hgne, hgci, hps⟩ := update_suffix_runs client fields pair.1
    { item_id := nid, content_id := some iid,
      content_type := some "Issue", title := pair.1.title,
      status := pair.2.status, assignee := none, labels := [],
      due_date := none, description := pair.1.description }
  have harch : RunsWith
      (attempt (emitCall (Call.archive_item pair.2.item_id)
        (client.archive_item pair.2.item_id)))
      (Except.ok (client.archive_item pair.2.item_id))
      [Call.archive_item pair.2.item_id] id :=
    RunsWith.attemptR (RunsWith.emit _ _)
  have hmod := RunsWith.bind_okF (fun _ =>
      pure
        ({ item_id := nid, content_id := some iid,
           content_type := some "Issue", title := pair.1.title,
           status := pair.2.status, assignee := none, labels := [],
           due_date := none, description := pair.1.description } : ProjectItem))
    (RunsWith.modify (fun res => { res with
      created_ids := dictSet res.created_ids pair.1.title nid }))
    (RunsWith.pureR _)
  have h3 := RunsWith.bind_okF (fun _ =>
      modifyRes (fun res => { res with
        created_ids := dictSet res.created_ids pair.1.title nid })
      >>= fun _ =>
      pure
        ({ item_id := nid, content_id := some iid,
           content_type := some "Issue", title := pair.1.title,
           status := pair.2.status, assignee := none, labels := [],
           due_date := none, description := pair.1.description } : ProjectItem))
    harch hmod
  have hpre := RunsWith.emit_bindF
    (Call.create_issue (ro.getD "") (rn.getD "")
      pair.1.title pair.1.description)
    (fun issue_id =>
      emitCall (Call.add_item_to_project issue_id)
        (client.add_item_to_project issue_id)
      >>= fun new_item_id =>
      attempt (emitCall (Call.archive_item pair.2.item_id)
        (client.archive_item pair.2.item_id))
      >>= fun _ =>
      modifyRes (fun res => { res with
        created_ids := dictSet res.created_ids pair.1.title new_item_id })
      >>= fun _ =>
      pure
        ({ item_id := new_item_id, content_id := some issue_id,
           content_type := some "Issue", title := pair.1.title,
           status := pair.2.status, assignee := none, labels := [],
           due_date := none, description := pair.1.description } : ProjectItem))
    hci
    (RunsWith.emit_bindF (Call.add_item_to_project iid) (fun new_item_id =>
      attempt (emitCall (Call.archive_item pair.2.item_id)
        (client.archive_item pair.2.item_id))
      >>= fun _ =>
      modifyRes (fun res => { res with
        created_ids := dictSet res.created_ids pair.1.title new_item_id })
      >>= fun _ =>
      pure
        ({ item_id := new_item_id, content_id := some iid,
           content_type := some "Issue", title := pair.1.title,
           status := pair.2.status, assignee := none, labels := [],
           due_date := none, description := pair.1.description } : ProjectItem))
      hadd h3)
  have hin := RunsWith.bind_okF (fun board_item =>
      apply_task_fields client board_item.item_id pair.1 fields (some board_item)
      >>= fun _ =>
      (if optTruthy board_item.content_id then
        attempt (
          if board_item.content_type == some "DraftIssue" then
            emitCall (Call.update_draft_issue_body (board_item.content_id.getD "")
                pair.1.title pair.1.description)
              (client.update_draft_issue_body (board_item.content_id.getD "")
                pair.1.title pair.1.description)
          else if board_item.content_type == some "Issue" then
            emitCall (Call.update_issue (board_item.content_id.getD "")
                pair.1.title pair.1.description)
              (client.update_issue (board_item.content_id.getD "")
                pair.1.title pair.1.description)
          else pure ())
        >>= fun _ => pure ()
      else pure ())
      >>= fun _ =>
      modifyRes (fun res => { res with updated := res.updated + 1 }))
    hpre hsuf
  have hgfull : NonErrG (g ∘ ((id ∘ (fun res => { res with
      created_ids := dictSet res.created_ids pair.1.title nid })) ∘ id)) :=
    NonErrG.comp ⟨fun _ _ => rfl, fun _ => rfl⟩ hgne
  refine ⟨τ, _, _, RunsTo.congrTau (runs_attempt_pureHandler hin hgfull _)
    (by simp), ?_, ?_, ?_⟩
  · intro c hc s hs
    rcases hps c hc s hs with h | h
    · exact Or.inl h
    · have h2 : some iid = some s := h
      injection h2 with h2
      exact Or.inr h2.symm
  · intro r2
    show dictGet (g (((id ∘ (fun res => { res with
        created_ids := dictSet res.created_ids pair.1.title nid })) ∘ id) r2)).created_ids
      pair.1.title = some nid
    rw [hgci]
    exact dictGet_dictSet _ _ _
  · exact hgfull.2

def c6Item : ProjectItem :=
  { item_id := "PVTI_d", title := "Draft task", status := "Todo",
    content_type := some "DraftIssue" }

def c6Task : Task :=
  { title := "Draft task", status := "Todo", board_item_id := some "PVTI_d" }

def c6Client : Client := { stubClient with list_items := [c6Item] }

theorem claim_C6_witness :
    ((∀ pr ∈ (build_sync_plan [c6Task] c6Client.list_items
        (some "harmoniqs") (some "tasksmd-sync") none).update,
      pr ∈ (convert_unchanged_drafts
        (build_sync_plan [c6Task] c6Client.list_items
          (some "harmoniqs") (some "tasksmd-sync") none)
        c6Client.list_items (some "harmoniqs") (some "tasksmd-sync")).update)
    ∧ (c6Task, c6Item) ∈ (convert_unchanged_drafts
        (build_sync_plan [c6Task] c6Client.list_items
          (some "harmoniqs") (some "tasksmd-sync") none)
        c6Client.list_items (some "harmoniqs") (some "tasksmd-sync")).update
    ∧ ∃ τs g es, RunsTo (update_one c6Client
          (some "harmoniqs") (some "tasksmd-sync") [] (c6Task, c6Item))
        (Call.create_issue "harmoniqs" "tasksmd-sync" "Draft task" ""
          :: Call.add_item_to_project "I_new"
          :: Call.archive_item "PVTI_d" :: τs) g es
      ∧ (∀ c ∈ τs, ∀ s ∈ callItemIds c, s = "PVTI_new_issue" ∨ s = "I_new")
      ∧ (∀ r, dictGet (g r).created_ids "Draft task" = some "PVTI_new_issue")
      ∧ (∀ r, (g r).matched_ids = r.matched_ids)) :=
  claim_C6 c6Client [c6Task] none (some "harmoniqs") (some "tasksmd-sync") []
    c6Task c6Item (c6Task, c6Item) "I_new" "PVTI_new_issue"
    (by decide) (by decide) (by decide) (by decide) (by decide) (by decide)
    rfl rfl

/-! ## Claim C8 -/

def c8Client : Client :=
  { stubClient with
    list_items := [{ item_id := "PVTI_1", title := "Task", status := "Todo",
                     content_type := some "Issue", content_id := some "I_1",
                     description := "old" }],
    update_issue := fun _ _ _ => Except.error "boom" }

/-- C8 as stated is false on the code: the update loop wraps the title/body
write in an inner try/except that only logs, so a raised `update_issue`
exception during that item\x27s operations is swallowed — the run reports no
error and still counts the item as updated. -/
theorem claim_C8_counterexample :
    c8Client.update_issue "I_1" "Task" "new" = Except.error "boom"
    ∧ Call.update_issue "I_1" "Task" "new"
        ∈ (execute_sync c8Client
          [{ title := "Task", status := "Todo",
             board_item_id := some "PVTI_1", description := "new" }]
          none none none false).2
    ∧ (execute_sync c8Client
        [{ title := "Task", status := "Todo",
           board_item_id := some "PVTI_1", description := "new" }]
        none none none false).1.errors = []
    ∧ (execute_sync c8Client
        [{ title := "Task", status := "Todo",
           board_item_id := some "PVTI_1", description := "new" }]
        none none none false).1.updated = 1 :=
  ⟨rfl, by decide, by decide, by decide⟩

/-- C8 (amended): during non-dry-run execution the error list is exactly the
in-order concatenation, over the four bucket loops, of one error list per
bucket item, each empty or a single message naming the failed task or item
title — every per-item exception reaching the per-item handler becomes one
recorded message and execution continues.  However, failures of the
best-effort title/body write (and of the old-Draft archive during
conversion) are caught by an inner handler and never recorded. -/
theorem claim_C8 (client : Client) (tasks : List Task)
    (repo_label ro rn : Option String) :
    ∃ ess1 ess2 ess3 ess4 : List (List String),
      (execute_sync client tasks repo_label ro rn false).1.errors
        = ess1.flatten ++ ess2.flatten ++ ess3.flatten ++ ess4.flatten
      ∧ List.Forall₂ (fun (t : Task) es => es = [] ∨ ∃ e,
          es = ["Failed to unarchive \x27" ++ t.title ++ "\x27: " ++ e])
        (convert_unchanged_drafts
          (build_sync_plan tasks client.list_items ro rn repo_label)
          client.list_items ro rn).unarchive ess1
      ∧ List.Forall₂ (fun (t : Task) es => es = [] ∨ ∃ e,
          es = ["Failed to create \x27" ++ t.title ++ "\x27: " ++ e])
        (convert_unchanged_drafts
          (build_sync_plan tasks client.list_items ro rn repo_label)
          client.list_items ro rn).create ess2
      ∧ List.Forall₂ (fun (pr : Task × ProjectItem) es => es = [] ∨ ∃ e,
          es = ["Failed to update \x27" ++ pr.1.title ++ "\x27: " ++ e])
        (convert_unchanged_drafts
          (build_sync_plan tasks client.list_items ro rn repo_label)
          client.list_items ro rn).update ess3
      ∧ List.Forall₂ (fun (bi : ProjectItem) es => es = [] ∨ ∃ e,
          es = ["Failed to archive \x27" ++ bi.title ++ "\x27: " ++ e])
        (convert_unchanged_drafts
          (build_sync_plan tasks client.list_items ro rn repo_label)
          client.list_items ro rn).archive ess4 := by
  obtain ⟨τ1, τ2, τ3, τ4, ess1, ess2, ess3, ess4, htr, herr, hp1, hp2, hp3, hp4,
    hfa1, hfa2, hfa3, hfa4⟩ := execute_sync_nondry client tasks repo_label ro rn _ rfl
  refine ⟨ess1, ess2, ess3, ess4, ?_, hfa1, hfa2, hfa3, hfa4⟩
  rw [herr]
  simp [List.append_assoc]

/-! ## Claim C10 -/

/-- C10: for a task of the unarchive bucket whose identifier the client never
hands out afresh and no listed item carries as content, every call of the
whole non-dry run that mutates that identifier is the unarchive mutation
itself — no status, due-date, title/body, assignee or label write targets the
unarchived item in the same run. -/
theorem claim_C10 (client : Client) (tasks : List Task)
    (repo_label ro rn : Option String) (t : Task)
    (ht : t ∈ (build_sync_plan tasks client.list_items ro rn repo_label).unarchive)
    (hfresh : ¬ ClientGenerated client (t.board_item_id.getD ""))
    (hcontent : ∀ bi ∈ client.list_items,
      bi.content_id ≠ some (t.board_item_id.getD "")) :
    ((execute_sync client tasks repo_label ro rn false).2.filter
      (fun c => (callItemIds c).contains (t.board_item_id.getD ""))).all
      (fun c => c == Call.unarchive_item (t.board_item_id.getD "")) = true := by
  obtain ⟨τ1, τ2, τ3, τ4, ess1, ess2, ess3, ess4, htr, herr, hp1, hp2, hp3, hp4,
    hfa1, hfa2, hfa3, hfa4⟩ := execute_sync_nondry client tasks repo_label ro rn _ rfl
  have hsrc := build_sync_plan_src tasks client.list_items ro rn repo_label
  have hnone : boardById client.list_items (t.board_item_id.getD "") = none :=
    (hsrc.1.1 t ht).2
  have hnm : ∀ bi ∈ client.list_items, bi.item_id ≠ t.board_item_id.getD "" :=
    boardById_none_not_mem _ _ hnone
  rw [List.all_eq_true]
  intro c hcf
  rw [List.mem_filter] at hcf
  obtain ⟨hc, hid⟩ := hcf
  have hmemid : t.board_item_id.getD "" ∈ callItemIds c := by
    simpa using hid
  rw [htr] at hc
  rcases List.mem_cons.mp hc with hc | hc
  · subst hc
    cases hmemid
  rcases List.mem_cons.mp hc with hc | hc
  · subst hc
    cases hmemid
  rcases List.mem_append.mp hc with hc | hc
  · obtain ⟨t2, ht2, hc2⟩ := hp1 c hc
    subst hc2
    rw [show callItemIds (Call.unarchive_item (t2.board_item_id.getD ""))
        = [t2.board_item_id.getD ""] from rfl, List.mem_singleton] at hmemid
    rw [hmemid]
    exact beq_self_eq_true _
  rcases List.mem_append.mp hc with hc | hc
  · obtain ⟨t2, ht2, hall⟩ := hp2 c hc
    exact absurd (hall _ hmemid) hfresh
  rcases List.mem_append.mp hc with hc | hc
  · obtain ⟨pr, hpr, hall⟩ := hp3 c hc
    have hmem2 : pr.2 ∈ client.list_items := by
      rcases convert_update_mem _ _ _ _ _ hpr with h | ⟨t3, bi3, hb3, hpr3⟩
      · exact hsrc.1.2 pr h
      · rw [hpr3]
        exact mem_of_boardById _ _ _ hb3
    rcases hall _ hmemid with h | h | h
    · exact absurd h hfresh
    · exact absurd h.symm (hnm pr.2 hmem2)
    · exact absurd h (hcontent pr.2 hmem2)
  rcases List.mem_append.mp hc with hc | hc
  · obtain ⟨bi2, hbi2, hc2⟩ := hp4 c hc
    subst hc2
    rw [show callItemIds (Call.archive_item bi2.item_id) = [bi2.item_id] from rfl,
      List.mem_singleton] at hmemid
    rw [convert_unchanged_drafts_archive] at hbi2
    exact absurd hmemid.symm (hnm bi2 (hsrc.2 bi2 hbi2))
  · cases hc

theorem claim_C10_witness :
    ((execute_sync stubClient
        [{ title := "Revived task", status := "Todo",
           board_item_id := some "PVTI_archived" }] none none none false).2.filter
      (fun c => (callItemIds c).contains "PVTI_archived")).all
      (fun c => c == Call.unarchive_item "PVTI_archived") = true :=
  claim_C10 stubClient
    [{ title := "Revived task", status := "Todo",
       board_item_id := some "PVTI_archived" }] none none none
    { title := "Revived task", status := "Todo",
      board_item_id := some "PVTI_archived" }
    (by decide)
    (by
      rintro (⟨a, b, hh⟩ | ⟨o, n, a, b, hh⟩ | ⟨cid, hh⟩)
      · injection hh with h2
        exact absurd h2 (by decide)
      · injection hh with h2
        exact absurd h2 (by decide)
      · injection hh with h2
        exact absurd h2 (by decide))
    (by decide)

end TasksmdSync
